import Mathlib

/-!
# SpamEmailClassifier: a shallow embedding of `ml_core`

The C sources `naive_bayes.c`, `classifier_core.c` and `probability_calc.c`
are transcribed function by function.

Modelling conventions

* A C string is the list of its characters before the terminating NUL
  (`Word`); `strcmp(a, b) == 0` is equality of the two lists.
* A `char **` token array is the list of its cells, `none` being the `NULL`
  sentinel (`TokenArray`).  Reading past the end of a list corresponds to
  reading past the end of the C array, which is undefined; the loops stop
  there.
* `int` is `Int`.  Signed overflow is undefined in C and is not modelled.
* The vocabulary array is the list of its first `vocab_size` cells, so
  `vocab_size` is the length of that list; `vocab_capacity` is kept as a
  field.  `malloc` and `realloc` are taken to succeed.
* A `double` stored in the model is an exact rational (every stored value is
  a quotient of two integers).  The scoring code, which calls `log` and
  `exp`, works on `CDouble`: exact reals extended by the three special
  values the C library produces (`log(0) = -inf`, `-inf - -inf = NaN`, ...).
* `printf` calls have no effect on the state and are left out.
-/

set_option autoImplicit false

namespace SpamClassifier

/-! ## Data model (`naive_bayes.h`) -/

/-- A C string: its characters before the terminating NUL. -/
abbrev Word := List Char

/-- A `char **` array: `some w` is a pointer to the string `w`, `none` is `NULL`. -/
abbrev TokenArray := List (Option Word)

def MAX_WORD_LENGTH : Nat := 100

def INITIAL_VOCAB_SIZE : Int := 5000

/-- The struct `WordProbability`. -/
structure WordProbability where
  word : Word
  spam_count : Int
  not_spam_count : Int
  prob_spam : ℚ
  prob_not_spam : ℚ
deriving DecidableEq

/-- The struct `SpamModel`; `vocabulary` holds the cells `0 .. vocab_size - 1`. -/
structure SpamModel where
  vocabulary : List WordProbability
  vocab_capacity : Int
  total_spam_emails : Int
  total_not_spam_emails : Int
  prior_spam : ℚ
  prior_not_spam : ℚ
deriving DecidableEq

/-- The field `vocab_size`: the number of cells in use. -/
def SpamModel.vocab_size (m : SpamModel) : Int := m.vocabulary.length

/-! ## `naive_bayes.c` -/

/-- `create_model`: an empty vocabulary with the initial capacity, all counters and priors zero. -/
def create_model : SpamModel :=
  { vocabulary := []
    vocab_capacity := INITIAL_VOCAB_SIZE
    total_spam_emails := 0
    total_not_spam_emails := 0
    prior_spam := 0
    prior_not_spam := 0 }

/-- The scan of `find_word` over the cells from the front: the index of the first cell whose
stored word compares equal to `word`. -/
def find_index : List WordProbability → Word → Option Nat
  | [], _ => none
  | e :: rest, word =>
    if e.word = word then some 0 else (find_index rest word).map (· + 1)

/-- `find_word`: a pointer to the first matching cell (its index), or `none` for `NULL`. -/
def find_word (m : SpamModel) (word : Word) : Option Nat :=
  find_index m.vocabulary word

/-- Write through a pointer to cell `i`. -/
def update_at (f : WordProbability → WordProbability) : List WordProbability → Nat → List WordProbability
  | [], _ => []
  | e :: rest, 0 => f e :: rest
  | e :: rest, i + 1 => e :: update_at f rest i

/-- `add_word_to_vocab`: increment a count of the cell found by `find_word`, or append a new
cell holding the first `MAX_WORD_LENGTH - 1` characters of `word` (after doubling the capacity
when the array is full).  The C function returns 1 on both paths. -/
def add_word_to_vocab (m : SpamModel) (word : Word) (is_spam : Int) : SpamModel :=
  match find_word m word with
  | some i =>
    if is_spam = 1 then
      { m with vocabulary := update_at (fun e => { e with spam_count := e.spam_count + 1 }) m.vocabulary i }
    else
      { m with vocabulary := update_at (fun e => { e with not_spam_count := e.not_spam_count + 1 }) m.vocabulary i }
  | none =>
    let m1 : SpamModel :=
      if m.vocab_size ≥ m.vocab_capacity then { m with vocab_capacity := m.vocab_capacity * 2 } else m
    let cell : WordProbability :=
      if is_spam = 1 then
        { word := word.take (MAX_WORD_LENGTH - 1), spam_count := 1, not_spam_count := 0,
          prob_spam := 0, prob_not_spam := 0 }
      else
        { word := word.take (MAX_WORD_LENGTH - 1), spam_count := 0, not_spam_count := 1,
          prob_spam := 0, prob_not_spam := 0 }
    { m1 with vocabulary := m1.vocabulary ++ [cell] }

/-- The inner loop of training: `for (j = 0; tokens[j] != NULL; j++) add_word_to_vocab(...)`. -/
def add_tokens (m : SpamModel) : TokenArray → Int → SpamModel
  | some w :: rest, label => add_tokens (add_word_to_vocab m w label) rest label
  | _, _ => m

/-- The outer loop of training over the emails `i, i+1, ..` with `n` iterations left. -/
def train_emails (m : SpamModel) : List TokenArray → List Int → Nat → SpamModel
  | tokens :: emails, label :: labels, n + 1 =>
    let m1 : SpamModel :=
      if label = 1 then { m with total_spam_emails := m.total_spam_emails + 1 }
      else { m with total_not_spam_emails := m.total_not_spam_emails + 1 }
    train_emails (add_tokens m1 tokens label) emails labels n
  | _, _, _ => m

/-- The prior computation of training, guarded by `total_emails > 0`. -/
def set_priors (m : SpamModel) : SpamModel :=
  let total_emails : Int := m.total_spam_emails + m.total_not_spam_emails
  if total_emails > 0 then
    { m with prior_spam := (m.total_spam_emails : ℚ) / (total_emails : ℚ)
             prior_not_spam := (m.total_not_spam_emails : ℚ) / (total_emails : ℚ) }
  else m

/-- The last loop of training: Laplace smoothing with `alpha = 1.0` on every cell. -/
def set_probabilities (m : SpamModel) : SpamModel :=
  let alpha : ℚ := 1
  { m with vocabulary := m.vocabulary.map (fun e =>
      { e with
        prob_spam := ((e.spam_count : ℚ) + alpha) / ((m.total_spam_emails : ℚ) + alpha * (m.vocab_size : ℚ))
        prob_not_spam := ((e.not_spam_count : ℚ) + alpha) /
          ((m.total_not_spam_emails : ℚ) + alpha * (m.vocab_size : ℚ)) }) }

/-- `train_naive_bayes_tokens`; `none` stands for a `NULL` argument. -/
def train_naive_bayes_tokens (m : SpamModel) (tokenized_emails : Option (List TokenArray))
    (labels : Option (List Int)) (email_count : Int) : SpamModel :=
  match tokenized_emails, labels with
  | some emails, some ls =>
    if email_count ≤ 0 then m
    else
      let m0 : SpamModel := { m with total_spam_emails := 0, total_not_spam_emails := 0 }
      set_probabilities (set_priors (train_emails m0 emails ls email_count.toNat))
  | _, _ => m

/-! ## Doubles in the scoring code -/

/-- A C `double` as seen by the scoring code: an exact real, or one of the special values
`NaN`, `-inf`, `+inf`.  Rounding and the sign of zero are not modelled. -/
inductive CDouble where
  | nan : CDouble
  | negInf : CDouble
  | posInf : CDouble
  | fin (r : ℝ) : CDouble

namespace CDouble

/-- C `log`: `log(0) = -inf`, `log(x) = NaN` for negative `x`. -/
noncomputable def log : CDouble → CDouble
  | fin x => if x < 0 then nan else if x = 0 then negInf else fin (Real.log x)
  | posInf => posInf
  | negInf => nan
  | nan => nan

/-- C `exp`: `exp(-inf) = 0`. -/
noncomputable def exp : CDouble → CDouble
  | fin x => fin (Real.exp x)
  | posInf => posInf
  | negInf => fin 0
  | nan => nan

/-- Addition of doubles: `inf + -inf = NaN`. -/
noncomputable def add : CDouble → CDouble → CDouble
  | fin a, fin b => fin (a + b)
  | fin _, posInf => posInf
  | fin _, negInf => negInf
  | posInf, fin _ => posInf
  | posInf, posInf => posInf
  | posInf, negInf => nan
  | negInf, fin _ => negInf
  | negInf, negInf => negInf
  | negInf, posInf => nan
  | nan, _ => nan
  | fin _, nan => nan
  | posInf, nan => nan
  | negInf, nan => nan

/-- Subtraction of doubles: `inf - inf = NaN`. -/
noncomputable def sub : CDouble → CDouble → CDouble
  | fin a, fin b => fin (a - b)
  | fin _, posInf => negInf
  | fin _, negInf => posInf
  | posInf, fin _ => posInf
  | posInf, negInf => posInf
  | posInf, posInf => nan
  | negInf, fin _ => negInf
  | negInf, posInf => negInf
  | negInf, negInf => nan
  | nan, _ => nan
  | fin _, nan => nan
  | posInf, nan => nan
  | negInf, nan => nan

/-- Division of doubles; a zero divisor is taken as `+0`. -/
noncomputable def div : CDouble → CDouble → CDouble
  | fin a, fin b =>
    if b = 0 then (if a = 0 then nan else if a > 0 then posInf else negInf) else fin (a / b)
  | fin _, posInf => fin 0
  | fin _, negInf => fin 0
  | posInf, fin b => if b ≥ 0 then posInf else negInf
  | negInf, fin b => if b ≥ 0 then negInf else posInf
  | posInf, posInf => nan
  | posInf, negInf => nan
  | negInf, posInf => nan
  | negInf, negInf => nan
  | nan, _ => nan
  | fin _, nan => nan
  | posInf, nan => nan
  | negInf, nan => nan

/-- The comparison `a > b`: false as soon as one side is `NaN`. -/
noncomputable def gt : CDouble → CDouble → Bool
  | fin a, fin b => decide (a > b)
  | fin _, negInf => true
  | posInf, fin _ => true
  | posInf, negInf => true
  | _, _ => false

/-- The comparison `a >= b`: false as soon as one side is `NaN`. -/
noncomputable def ge : CDouble → CDouble → Bool
  | fin a, fin b => decide (a ≥ b)
  | fin _, negInf => true
  | posInf, fin _ => true
  | posInf, negInf => true
  | posInf, posInf => true
  | negInf, negInf => true
  | _, _ => false

/-- The comparison `a <= b`: false as soon as one side is `NaN`. -/
noncomputable def le (a b : CDouble) : Bool := ge b a

end CDouble

/-! ## Scoring and classification (`naive_bayes.c`) -/

/-- The body of the scoring loop for one token: add the logarithms of the two conditional
probabilities of the cell found, or the logarithm of `1.0 / (vocab_size + 1)` to both scores
when `find_word` returns `NULL`. -/
noncomputable def score_step (m : SpamModel) (word : Word) (scores : CDouble × CDouble) :
    CDouble × CDouble :=
  match find_word m word with
  | some i =>
    match m.vocabulary[i]? with
    | some word_prob =>
      (scores.1.add (CDouble.log (CDouble.fin (word_prob.prob_spam : ℝ))),
       scores.2.add (CDouble.log (CDouble.fin (word_prob.prob_not_spam : ℝ))))
    | none => scores
  | none =>
    let unknown_prob : CDouble := CDouble.fin (1 / (((m.vocab_size + 1 : Int) : ℝ)))
    (scores.1.add (CDouble.log unknown_prob), scores.2.add (CDouble.log unknown_prob))

/-- The scoring loop `for (i = 0; i < token_count && tokens[i] != NULL; i++)`, with `n`
iterations left; the pair is `(spam_score, not_spam_score)`. -/
noncomputable def score_tokens (m : SpamModel) : TokenArray → Nat → CDouble × CDouble → CDouble × CDouble
  | some w :: rest, n + 1, scores => score_tokens m rest n (score_step m w scores)
  | _, _, scores => scores

/-- The last four statements of `predict_spam_probability_tokens`: subtract the larger score
from both, exponentiate, and return `exp_spam / (exp_spam + exp_not_spam)`. -/
noncomputable def normalize_scores (spam_score not_spam_score : CDouble) : CDouble :=
  let max_score := if CDouble.gt spam_score not_spam_score then spam_score else not_spam_score
  let exp_spam := CDouble.exp (spam_score.sub max_score)
  let exp_not_spam := CDouble.exp (not_spam_score.sub max_score)
  exp_spam.div (exp_spam.add exp_not_spam)

/-- `predict_spam_probability_tokens`; `none` stands for `tokens == NULL`. -/
noncomputable def predict_spam_probability_tokens (m : SpamModel) (tokens : Option TokenArray)
    (token_count : Int) : CDouble :=
  match tokens with
  | none => CDouble.fin 0
  | some ts =>
    if m.vocab_size = 0 then CDouble.fin 0
    else
      let spam_score := CDouble.log (CDouble.fin (m.prior_spam : ℝ))
      let not_spam_score := CDouble.log (CDouble.fin (m.prior_not_spam : ℝ))
      let scores := score_tokens m ts token_count.toNat (spam_score, not_spam_score)
      normalize_scores scores.1 scores.2

/-- `classify_email_tokens`: 1 when the probability is `>= threshold`, else 0. -/
noncomputable def classify_email_tokens (m : SpamModel) (tokens : Option TokenArray)
    (token_count : Int) (threshold : CDouble) : Int :=
  if CDouble.ge (predict_spam_probability_tokens m tokens token_count) threshold then 1 else 0

/-- `get_vocabulary_size` on a non-null model. -/
def get_vocabulary_size (m : SpamModel) : Int := m.vocab_size

/-! ## `probability_calc.c` -/

/-- `safe_log`: `-1000.0` when `x <= 0.0`, else `log(x)`. -/
noncomputable def safe_log (x : CDouble) : CDouble :=
  if CDouble.le x (CDouble.fin 0) then CDouble.fin (-1000) else CDouble.log x

/-! ## `classifier_core.c` -/

/-- The struct `Classifier`; the owned model is held by value. -/
structure Classifier where
  model : SpamModel
  classification_threshold : CDouble
  total_predictions : Int
  correct_predictions : Int

/-- `create_classifier`. -/
def create_classifier (threshold : CDouble) : Classifier :=
  { model := create_model
    classification_threshold := threshold
    total_predictions := 0
    correct_predictions := 0 }

/-- `classifier_train_tokens`: returns at once when `tokenized_emails` is `NULL`, else trains
the owned model. -/
def classifier_train_tokens (c : Classifier) (tokenized_emails : Option (List TokenArray))
    (labels : Option (List Int)) (email_count : Int) : Classifier :=
  match tokenized_emails with
  | none => c
  | some emails => { c with model := train_naive_bayes_tokens c.model (some emails) labels email_count }

/-- `classifier_predict_tokens`: the classifier after the call and the value returned. -/
noncomputable def classifier_predict_tokens (c : Classifier) (tokens : Option TokenArray)
    (token_count : Int) : Classifier × Int :=
  match tokens with
  | none => (c, 0)
  | some ts =>
    let prediction := classify_email_tokens c.model (some ts) token_count c.classification_threshold
    ({ c with total_predictions := c.total_predictions + 1 }, prediction)

/-- `get_classifier_accuracy`. -/
def get_classifier_accuracy (c : Classifier) : ℚ :=
  if c.total_predictions = 0 then 0
  else (c.correct_predictions : ℚ) / (c.total_predictions : ℚ)

/-- `reset_classifier_stats`. -/
def reset_classifier_stats (c : Classifier) : Classifier :=
  { c with total_predictions := 0, correct_predictions := 0 }

/-! ## The demo data of `test_mlCode.c` -/

/-- The six emails built by `create_test_tokenized_emails`. -/
def create_test_tokenized_emails : List TokenArray :=
  [ [some "congratulations".toList, some "you".toList, some "won".toList, some "free".toList,
     some "lottery".toList, none],
    [some "meeting".toList, some "tomorrow".toList, some "10am".toList, some "conference".toList, none],
    [some "urgent".toList, some "account".toList, some "suspended".toList, some "verify".toList, none],
    [some "lunch".toList, some "restaurant".toList, some "noon".toList, none],
    [some "winner".toList, some "claim".toList, some "prize".toList, some "money".toList,
     some "now".toList, none],
    [some "homework".toList, some "assignment".toList, some "due".toList, none] ]

/-- The array `labels` of `main`. -/
def demo_labels : List Int := [1, 0, 1, 0, 1, 0]

/-- The model of `main` after `classifier_train_tokens`. -/
def demo_model : SpamModel :=
  train_naive_bayes_tokens create_model (some create_test_tokenized_emails) (some demo_labels) 6

/-- The number of labels equal to 1 among the first `n` labels. -/
def count_spam_labels (labels : List Int) (n : Nat) : Nat :=
  ((labels.take n).filter (fun l => l = 1)).length

/-- The cell the demo training leaves for a word seen once, in a spam email (`true`) or in a
not-spam email (`false`): the counts and the two smoothed probabilities. -/
def demo_cell (w : String) (spam : Bool) : WordProbability :=
  if spam then
    { word := w.toList, spam_count := 1, not_spam_count := 0, prob_spam := 2 / 27, prob_not_spam := 1 / 27 }
  else
    { word := w.toList, spam_count := 0, not_spam_count := 1, prob_spam := 1 / 27, prob_not_spam := 2 / 27 }

/-- The 24 cells of the demo model, in index order. -/
def demo_vocabulary : List WordProbability :=
  [ demo_cell "congratulations" true, demo_cell "you" true, demo_cell "won" true,
    demo_cell "free" true, demo_cell "lottery" true,
    demo_cell "meeting" false, demo_cell "tomorrow" false, demo_cell "10am" false,
    demo_cell "conference" false,
    demo_cell "urgent" true, demo_cell "account" true, demo_cell "suspended" true,
    demo_cell "verify" true,
    demo_cell "lunch" false, demo_cell "restaurant" false, demo_cell "noon" false,
    demo_cell "winner" true, demo_cell "claim" true, demo_cell "prize" true,
    demo_cell "money" true, demo_cell "now" true,
    demo_cell "homework" false, demo_cell "assignment" false, demo_cell "due" false ]

/-- A word of 100 characters, one more than a cell can hold. -/
def long_word : Word := List.replicate 100 'a'

/-- One spam email that repeats a single word three times. -/
def repeated_word_email : List TokenArray :=
  [[some "free".toList, some "free".toList, some "free".toList, none]]

/-! ## The product form of the two class scores -/

/-- The pair of factors one token contributes to the two class likelihoods: the two
conditional probabilities of its cell, or `1 / (vocab_size + 1)` twice for an unknown token. -/
def token_factor (m : SpamModel) (word : Word) : ℚ × ℚ :=
  match find_word m word with
  | some i =>
    match m.vocabulary[i]? with
    | some word_prob => (word_prob.prob_spam, word_prob.prob_not_spam)
    | none => (1, 1)
  | none => (1 / ((m.vocab_size + 1 : Int) : ℚ), 1 / ((m.vocab_size + 1 : Int) : ℚ))

/-- The products of the factors of the tokens the scoring loop processes: at most `n` tokens,
up to the first `NULL`. -/
def token_products (m : SpamModel) : TokenArray → Nat → ℚ × ℚ
  | some w :: rest, n + 1 =>
    ((token_factor m w).1 * (token_products m rest n).1,
     (token_factor m w).2 * (token_products m rest n).2)
  | _, _ => (1, 1)

/-- The direct Bayes ratio `S / (S + N)` with `S = prior_spam * product of prob_spam` and
`N = prior_not_spam * product of prob_not_spam`. -/
def bayes_ratio (m : SpamModel) (tokens : TokenArray) (n : Nat) : ℚ :=
  m.prior_spam * (token_products m tokens n).1 /
    (m.prior_spam * (token_products m tokens n).1 + m.prior_not_spam * (token_products m tokens n).2)

/-- The state the scoring code expects: priors that are non-negative and not both zero, and
strictly positive conditional probabilities in every cell. -/
def scoring_ready (m : SpamModel) : Prop :=
  0 ≤ m.prior_spam ∧ 0 ≤ m.prior_not_spam ∧ (0 < m.prior_spam ∨ 0 < m.prior_not_spam) ∧
  ∀ e ∈ m.vocabulary, 0 < e.prob_spam ∧ 0 < e.prob_not_spam

instance (m : SpamModel) : Decidable (scoring_ready m) := by
  unfold scoring_ready
  infer_instance

/-- Every cell has non-negative counts, as in every state built from `create_model`. -/
def counts_nonneg (m : SpamModel) : Prop :=
  ∀ e ∈ m.vocabulary, 0 ≤ e.spam_count ∧ 0 ≤ e.not_spam_count

/-- A model whose cells were added by `add_word_to_vocab` but never trained. -/
def untrained_model : SpamModel := add_word_to_vocab create_model "x".toList 1

/-- The first query of `main`. -/
def test1 : TokenArray := [some "free".toList, some "money".toList, some "winner".toList, none]

/-! ## Token sequences and occurrence counts -/

/-- The tokens the inner training loop reads from a token array: those before the first `NULL`. -/
def tokens_before_null : TokenArray → List Word
  | some w :: rest => w :: tokens_before_null rest
  | _ => []

/-- The tokens the scoring loop reads from a token array with `n` iterations allowed: at most
`n` of them, up to the first `NULL`. -/
def processed_tokens : TokenArray → Nat → List Word
  | some w :: rest, n + 1 => w :: processed_tokens rest n
  | _, _ => []

/-- The number of token instances of `w` in the first `n` emails of a batch, as a pair: in the
emails labelled 1, and in the emails with any other label. -/
def batch_counts (w : Word) : List TokenArray → List Int → Nat → Int × Int
  | tokens :: emails, label :: labels, n + 1 =>
    if label = 1 then
      (((tokens_before_null tokens).count w : Int) + (batch_counts w emails labels n).1,
       (batch_counts w emails labels n).2)
    else
      ((batch_counts w emails labels n).1,
       ((tokens_before_null tokens).count w : Int) + (batch_counts w emails labels n).2)
  | _, _, _ => (0, 0)

/-- Every token of every email is shorter than `MAX_WORD_LENGTH`, so it is stored whole. -/
def batch_short (emails : List TokenArray) : Prop :=
  ∀ tokens ∈ emails, ∀ w ∈ tokens_before_null tokens, w.length < MAX_WORD_LENGTH

/-- The pair `(spam_count, not_spam_count)` of the cell `find_word` returns for `w`, and
`(0, 0)` when it returns `NULL`. -/
def word_counts (m : SpamModel) (w : Word) : Int × Int :=
  match find_word m w with
  | some i =>
    match m.vocabulary[i]? with
    | some e => (e.spam_count, e.not_spam_count)
    | none => (0, 0)
  | none => (0, 0)

/-- The same pair read off the list of cells: the counts of the first cell whose word is `w`. -/
def cell_counts : List WordProbability → Word → Int × Int
  | [], _ => (0, 0)
  | e :: rest, w => if e.word = w then (e.spam_count, e.not_spam_count) else cell_counts rest w

/-- The effect of `add_word_to_vocab` on the list of cells: increment the first cell whose
word is `word`, or append a new cell when there is none. -/
def add_cells : List WordProbability → Word → Int → List WordProbability
  | [], word, is_spam =>
    [if is_spam = 1 then
        { word := word.take (MAX_WORD_LENGTH - 1), spam_count := 1, not_spam_count := 0,
          prob_spam := 0, prob_not_spam := 0 }
      else
        { word := word.take (MAX_WORD_LENGTH - 1), spam_count := 0, not_spam_count := 1,
          prob_spam := 0, prob_not_spam := 0 }]
  | e :: rest, word, is_spam =>
    if e.word = word then
      (if is_spam = 1 then { e with spam_count := e.spam_count + 1 }
       else { e with not_spam_count := e.not_spam_count + 1 }) :: rest
    else e :: add_cells rest word is_spam

/-- A token is known to the model when `find_word` does not return `NULL`. -/
def known (m : SpamModel) (w : Word) : Bool := (find_word m w).isSome

/-- The scoring loop run over a plain list of tokens. -/
noncomputable def score_words (m : SpamModel) : List Word → CDouble × CDouble → CDouble × CDouble
  | [], scores => scores
  | w :: rest, scores => score_words m rest (score_step m w scores)

/-! ## The demo classifier of `test_mlCode.c` -/

/-- The classifier of `main` after `create_classifier(0.5)` and `classifier_train_tokens`. -/
noncomputable def demo_classifier : Classifier :=
  classifier_train_tokens (create_classifier (CDouble.fin (1 / 2)))
    (some create_test_tokenized_emails) (some demo_labels) 6

/-- The tokens of the first `n` emails whose label is 1 (`true`) or is not 1 (`false`). -/
def class_words : List TokenArray → List Int → Nat → Bool → List Word
  | tokens :: emails, label :: labels, n + 1, spam =>
    if decide (label = 1) = spam then tokens_before_null tokens ++ class_words emails labels n spam
    else class_words emails labels n spam
  | _, _, _, _ => []

/-- The words that occur only in the spam-labelled demo emails. -/
def demo_spam_only : List Word :=
  (class_words create_test_tokenized_emails demo_labels 6 true).filter
    (fun w => w ∉ class_words create_test_tokenized_emails demo_labels 6 false)

/-- The words that occur only in the not-spam demo emails. -/
def demo_not_spam_only : List Word :=
  (class_words create_test_tokenized_emails demo_labels 6 false).filter
    (fun w => w ∉ class_words create_test_tokenized_emails demo_labels 6 true)

/-- The second query of `main`. -/
def test2 : TokenArray := [some "meeting".toList, some "project".toList, some "update".toList, none]

/-- The third query of `main`. -/
def test3 : TokenArray := [some "urgent".toList, some "verify".toList, some "account".toList, none]

/-- The fourth query of `main`. -/
def test4 : TokenArray := [some "unknown".toList, some "words".toList, some "test".toList, none]

/-- The fifth query of `main`. -/
def test5 : TokenArray := [some "free".toList, none]

/-- The classifier states reached from `create_classifier` by training, prediction and
statistics reset calls. -/
inductive ClassifierReachable : Classifier → Prop where
  | create (threshold : CDouble) : ClassifierReachable (create_classifier threshold)
  | train (c : Classifier) (tokenized_emails : Option (List TokenArray))
      (labels : Option (List Int)) (email_count : Int) :
      ClassifierReachable c →
      ClassifierReachable (classifier_train_tokens c tokenized_emails labels email_count)
  | predict (c : Classifier) (tokens : Option TokenArray) (token_count : Int) :
      ClassifierReachable c →
      ClassifierReachable (classifier_predict_tokens c tokens token_count).1
  | reset (c : Classifier) :
      ClassifierReachable c → ClassifierReachable (reset_classifier_stats c)

/-- A model whose one-cell array is full (`vocab_size == vocab_capacity == 1`). -/
def full_model : SpamModel :=
  { vocabulary := [{ word := "x".toList, spam_count := 1, not_spam_count := 0,
                     prob_spam := 0, prob_not_spam := 0 }]
    vocab_capacity := 1
    total_spam_emails := 0
    total_not_spam_emails := 0
    prior_spam := 0
    prior_not_spam := 0 }

/-- The logarithm an unknown token adds to both scores. -/
noncomputable def unknown_log (m : SpamModel) : ℝ :=
  Real.log (1 / ((m.vocab_size + 1 : Int) : ℝ))

/-! ## First-seen order and label classes -/

/-- The tokens of the emails the training loop processes, email 0 first: the tokens before
`NULL` of the first `n` emails (the loop reads `tokenized_emails[i]` and `labels[i]`
together). -/
def batch_tokens : List TokenArray → List Int → Nat → List Word
  | tokens :: emails, _ :: labels, n + 1 => tokens_before_null tokens ++ batch_tokens emails labels n
  | _, _, _ => []

/-- A list of words with every later duplicate removed: the head is kept and its later copies
are dropped from the rest. -/
def remove_later_duplicates : List Word → List Word
  | [] => []
  | w :: rest => w :: (remove_later_duplicates rest).filter (fun u => u ≠ w)

/-- The word list of the vocabulary after one more token was seen: unchanged when the token
is already there, else extended by the token at the end. -/
def see_word (words : List Word) (w : Word) : List Word :=
  if w ∈ words then words else words ++ [w]

/-- The class a label stands for in training: 1 for the label 1, 0 for every other label. -/
def label_class (label : Int) : Int := if label = 1 then 1 else 0

/-- The labels of `main` with the not-spam labels replaced by other values different from 1. -/
def odd_labels : List Int := [1, 2, 1, -5, 1, 0]

/-! ## Frame lemmas for the vocabulary operations -/

theorem add_word_to_vocab_totals (m : SpamModel) (w : Word) (l : Int) :
    (add_word_to_vocab m w l).total_spam_emails = m.total_spam_emails ∧
    (add_word_to_vocab m w l).total_not_spam_emails = m.total_not_spam_emails := by
  unfold add_word_to_vocab
  split
  · split <;> simp
  · dsimp only
    split <;> simp

theorem add_tokens_totals (ts : TokenArray) (m : SpamModel) (l : Int) :
    (add_tokens m ts l).total_spam_emails = m.total_spam_emails ∧
    (add_tokens m ts l).total_not_spam_emails = m.total_not_spam_emails := by
  induction ts generalizing m with
  | nil => simp [add_tokens]
  | cons t rest ih =>
    cases t with
    | none => simp [add_tokens]
    | some w =>
      simp only [add_tokens]
      rw [(ih (add_word_to_vocab m w l)).1, (ih (add_word_to_vocab m w l)).2]
      exact add_word_to_vocab_totals m w l

theorem train_emails_totals (emails : List TokenArray) (labels : List Int) (n : Nat) (m : SpamModel)
    (he : n ≤ emails.length) (hl : n ≤ labels.length) :
    (train_emails m emails labels n).total_spam_emails
      = m.total_spam_emails + (count_spam_labels labels n : Int) ∧
    (train_emails m emails labels n).total_not_spam_emails
      = m.total_not_spam_emails + ((n : Int) - (count_spam_labels labels n : Int)) := by
  induction n generalizing m emails labels with
  | zero =>
    cases emails <;> cases labels <;> simp [train_emails, count_spam_labels]
  | succ k ih =>
    cases emails with
    | nil => simp at he
    | cons ts es =>
      cases labels with
      | nil => simp at hl
      | cons l ls =>
        simp only [List.length_cons, Nat.add_le_add_iff_right] at he hl
        simp only [train_emails]
        obtain ⟨h1, h2⟩ := ih es ls (add_tokens
          (if l = 1 then { m with total_spam_emails := m.total_spam_emails + 1 }
           else { m with total_not_spam_emails := m.total_not_spam_emails + 1 }) ts l) he hl
        rw [h1, h2, (add_tokens_totals ts _ l).1, (add_tokens_totals ts _ l).2]
        by_cases hl1 : l = 1
        · simp [hl1, count_spam_labels]; ring
        · simp [hl1, count_spam_labels]; ring

/-! ## Lookup after an insertion or an update -/

theorem find_index_lt (vocab : List WordProbability) (w : Word) (i : Nat)
    (h : find_index vocab w = some i) : i < vocab.length := by
  induction vocab generalizing i with
  | nil => simp [find_index] at h
  | cons e rest ih =>
    simp only [find_index] at h
    split at h
    · cases h; simp
    · cases hr : find_index rest w with
      | none => simp [hr] at h
      | some j =>
        simp [hr] at h
        subst h
        have := ih j hr
        simp
        omega

theorem take_short (w : Word) (h : w.length < MAX_WORD_LENGTH) :
    w.take (MAX_WORD_LENGTH - 1) = w := by
  apply List.take_of_length_le
  unfold MAX_WORD_LENGTH at *
  omega

theorem update_at_length (f : WordProbability → WordProbability) (l : List WordProbability)
    (i : Nat) : (update_at f l i).length = l.length := by
  induction l generalizing i with
  | nil => simp [update_at]
  | cons a rest ih =>
    cases i with
    | zero => simp [update_at]
    | succ k => simp [update_at, ih]

theorem update_at_getElem (f : WordProbability → WordProbability) (l : List WordProbability)
    (i : Nat) : (update_at f l i)[i]? = (l[i]?).map f := by
  induction l generalizing i with
  | nil => simp [update_at]
  | cons a rest ih =>
    cases i with
    | zero => simp [update_at]
    | succ k => simp [update_at, ih]

theorem find_index_update_at (f : WordProbability → WordProbability)
    (hf : ∀ e, (f e).word = e.word) (l : List WordProbability) (i : Nat) (w : Word) :
    find_index (update_at f l i) w = find_index l w := by
  induction l generalizing i with
  | nil => simp [update_at]
  | cons a rest ih =>
    cases i with
    | zero => simp [update_at, find_index, hf]
    | succ k => simp [update_at, find_index, ih]

theorem find_index_append_new (l : List WordProbability) (c : WordProbability) (w : Word)
    (hnone : find_index l w = none) (hc : c.word = w) :
    find_index (l ++ [c]) w = some l.length := by
  induction l with
  | nil => simp [find_index, hc]
  | cons a rest ih =>
    simp only [find_index] at hnone
    split at hnone
    · cases hnone
    · rename_i hne
      have hr : find_index rest w = none := by
        cases hrest : find_index rest w with
        | none => rfl
        | some j => simp [hrest] at hnone
      simp [find_index, hne, ih hr]

/-- A word short enough to be stored whole is found right after it was added. -/
theorem find_word_after_add (m : SpamModel) (w : Word) (l : Int)
    (hshort : w.length < MAX_WORD_LENGTH) :
    ∃ i, find_word (add_word_to_vocab m w l) w = some i := by
  unfold add_word_to_vocab
  cases hf : find_word m w with
  | some i =>
    refine ⟨i, ?_⟩
    simp only
    split
    · exact (find_index_update_at (fun e => { e with spam_count := e.spam_count + 1 })
        (fun _ => rfl) m.vocabulary i w).trans hf
    · exact (find_index_update_at (fun e => { e with not_spam_count := e.not_spam_count + 1 })
        (fun _ => rfl) m.vocabulary i w).trans hf
  | none =>
    refine ⟨m.vocabulary.length, ?_⟩
    simp only [find_word]
    have hvoc : ∀ m1 : SpamModel, m1.vocabulary = m.vocabulary → ∀ c : WordProbability,
        c.word = w → find_index (m1.vocabulary ++ [c]) w = some m.vocabulary.length := by
      intro m1 h1 c hc
      rw [h1]
      exact find_index_append_new _ c w hf hc
    refine hvoc _ ?_ _ ?_
    · split <;> rfl
    · split <;> exact take_short w hshort

/-- For a word short enough to be stored whole, a second `add_word_to_vocab` call with the same
word leaves `vocab_size` unchanged and adds exactly 1 to the sum of the two counts of the cell
`find_word` returns. -/
theorem add_word_twice_short (m : SpamModel) (w : Word) (l1 l2 : Int)
    (hshort : w.length < MAX_WORD_LENGTH) :
    (add_word_to_vocab (add_word_to_vocab m w l1) w l2).vocab_size
      = (add_word_to_vocab m w l1).vocab_size ∧
    ∃ i e1 e2, find_word (add_word_to_vocab m w l1) w = some i ∧
      (add_word_to_vocab m w l1).vocabulary[i]? = some e1 ∧
      (add_word_to_vocab (add_word_to_vocab m w l1) w l2).vocabulary[i]? = some e2 ∧
      e2.word = e1.word ∧
      e2.spam_count + e2.not_spam_count = e1.spam_count + e1.not_spam_count + 1 := by
  obtain ⟨i, hi⟩ := find_word_after_add m w l1 hshort
  have hlt := find_index_lt _ _ _ hi
  have hget : (add_word_to_vocab m w l1).vocabulary[i]?
      = some ((add_word_to_vocab m w l1).vocabulary[i]) := List.getElem?_eq_getElem hlt
  generalize add_word_to_vocab m w l1 = m1 at hi hlt hget ⊢
  unfold add_word_to_vocab
  simp only [hi]
  split
  · refine ⟨by simp [SpamModel.vocab_size, update_at_length], i, m1.vocabulary[i],
      { m1.vocabulary[i] with spam_count := m1.vocabulary[i].spam_count + 1 },
      rfl, hget, ?_, rfl, ?_⟩
    · simp only [update_at_getElem, hget, Option.map_some']
    · dsimp only; ring
  · refine ⟨by simp [SpamModel.vocab_size, update_at_length], i, m1.vocabulary[i],
      { m1.vocabulary[i] with not_spam_count := m1.vocabulary[i].not_spam_count + 1 },
      rfl, hget, ?_, rfl, ?_⟩
    · simp only [update_at_getElem, hget, Option.map_some']
    · dsimp only; ring

/-! ## The shape of a training call -/

theorem train_unfold (m : SpamModel) (emails : List TokenArray) (labels : List Int)
    (email_count : Int) (hpos : 0 < email_count) :
    train_naive_bayes_tokens m (some emails) (some labels) email_count
      = set_probabilities (set_priors (train_emails
          { m with total_spam_emails := 0, total_not_spam_emails := 0 }
          emails labels email_count.toNat)) := by
  simp [train_naive_bayes_tokens, not_le.mpr hpos]

theorem set_probabilities_frame (m : SpamModel) :
    (set_probabilities m).total_spam_emails = m.total_spam_emails ∧
    (set_probabilities m).total_not_spam_emails = m.total_not_spam_emails ∧
    (set_probabilities m).prior_spam = m.prior_spam ∧
    (set_probabilities m).prior_not_spam = m.prior_not_spam ∧
    (set_probabilities m).vocab_capacity = m.vocab_capacity ∧
    (set_probabilities m).vocab_size = m.vocab_size := by
  simp [set_probabilities, SpamModel.vocab_size]

theorem set_priors_frame (m : SpamModel) :
    (set_priors m).total_spam_emails = m.total_spam_emails ∧
    (set_priors m).total_not_spam_emails = m.total_not_spam_emails ∧
    (set_priors m).vocabulary = m.vocabulary ∧
    (set_priors m).vocab_capacity = m.vocab_capacity := by
  unfold set_priors
  dsimp only
  split <;> simp

/-- The two email counters after a training call: the number of labels equal to 1 among the
first `email_count` labels, and the number of the others. -/
theorem train_totals (m : SpamModel) (emails : List TokenArray) (labels : List Int)
    (email_count : Int) (hpos : 0 < email_count)
    (he : email_count ≤ emails.length) (hl : email_count ≤ labels.length) :
    (train_naive_bayes_tokens m (some emails) (some labels) email_count).total_spam_emails
      = (count_spam_labels labels email_count.toNat : Int) ∧
    (train_naive_bayes_tokens m (some emails) (some labels) email_count).total_not_spam_emails
      = email_count - (count_spam_labels labels email_count.toNat : Int) := by
  have he' : email_count.toNat ≤ emails.length := by omega
  have hl' : email_count.toNat ≤ labels.length := by omega
  obtain ⟨h1, h2⟩ := train_emails_totals emails labels email_count.toNat
    { m with total_spam_emails := 0, total_not_spam_emails := 0 } he' hl'
  rw [train_unfold m emails labels email_count hpos]
  rw [(set_probabilities_frame _).1, (set_probabilities_frame _).2.1,
    (set_priors_frame _).1, (set_priors_frame _).2.1, h1, h2]
  simp only [zero_add]
  refine ⟨trivial, ?_⟩
  rw [Int.toNat_of_nonneg (le_of_lt hpos)]

/-! ## The demo model -/

theorem demo_counting_loop :
    (train_emails { create_model with total_spam_emails := 0, total_not_spam_emails := 0 }
        create_test_tokenized_emails demo_labels 6)
      = { vocabulary := demo_vocabulary.map (fun e => { e with prob_spam := 0, prob_not_spam := 0 })
          vocab_capacity := 5000
          total_spam_emails := 3
          total_not_spam_emails := 3
          prior_spam := 0
          prior_not_spam := 0 } := by
  decide

theorem demo_model_eq :
    demo_model = { vocabulary := demo_vocabulary
                   vocab_capacity := 5000
                   total_spam_emails := 3
                   total_not_spam_emails := 3
                   prior_spam := 1 / 2
                   prior_not_spam := 1 / 2 } := by
  unfold demo_model
  rw [train_unfold _ _ _ _ (by decide)]
  have h6 : (6 : Int).toNat = 6 := rfl
  rw [h6, demo_counting_loop]
  simp [set_priors, set_probabilities, SpamModel.vocab_size, demo_vocabulary, demo_cell]
  norm_num

/-- The priors after a training call, in terms of the two counters. -/
theorem train_priors (m : SpamModel) (emails : List TokenArray) (labels : List Int)
    (email_count : Int) (hpos : 0 < email_count)
    (he : email_count ≤ emails.length) (hl : email_count ≤ labels.length) :
    (train_naive_bayes_tokens m (some emails) (some labels) email_count).prior_spam
      = ((train_naive_bayes_tokens m (some emails) (some labels) email_count).total_spam_emails : ℚ)
          / (email_count : ℚ) ∧
    (train_naive_bayes_tokens m (some emails) (some labels) email_count).prior_not_spam
      = ((train_naive_bayes_tokens m (some emails) (some labels) email_count).total_not_spam_emails : ℚ)
          / (email_count : ℚ) ∧
    (train_naive_bayes_tokens m (some emails) (some labels) email_count).prior_spam
      + (train_naive_bayes_tokens m (some emails) (some labels) email_count).prior_not_spam = 1 := by
  obtain ⟨ht1, ht2⟩ := train_totals m emails labels email_count hpos he hl
  rw [ht1, ht2]
  have he' : email_count.toNat ≤ emails.length := by omega
  have hl' : email_count.toNat ≤ labels.length := by omega
  obtain ⟨h1, h2⟩ := train_emails_totals emails labels email_count.toNat
    { m with total_spam_emails := 0, total_not_spam_emails := 0 } he' hl'
  simp only [zero_add] at h1 h2
  rw [Int.toNat_of_nonneg (le_of_lt hpos)] at h2
  have hq : (email_count : ℚ) ≠ 0 := by
    have : (0 : ℚ) < (email_count : ℚ) := by exact_mod_cast hpos
    exact ne_of_gt this
  rw [train_unfold m emails labels email_count hpos]
  rw [(set_probabilities_frame _).2.2.1, (set_probabilities_frame _).2.2.2.1]
  have hsum : (train_emails { m with total_spam_emails := 0, total_not_spam_emails := 0 }
      emails labels email_count.toNat).total_spam_emails
      + (train_emails { m with total_spam_emails := 0, total_not_spam_emails := 0 }
      emails labels email_count.toNat).total_not_spam_emails = email_count := by
    rw [h1, h2]; ring
  unfold set_priors
  simp only [hsum, hpos, if_true, gt_iff_lt]
  rw [h1, h2]
  refine ⟨rfl, ?_, ?_⟩
  · push_cast; rfl
  · push_cast
    field_simp

/-- The smoothing formula holds in every cell after a training call. -/
theorem train_smoothing (m : SpamModel) (emails : List TokenArray) (labels : List Int)
    (email_count : Int) (hpos : 0 < email_count) :
    ∀ e ∈ (train_naive_bayes_tokens m (some emails) (some labels) email_count).vocabulary,
      e.prob_spam = ((e.spam_count : ℚ) + 1) /
        (((train_naive_bayes_tokens m (some emails) (some labels) email_count).total_spam_emails : ℚ)
          + ((train_naive_bayes_tokens m (some emails) (some labels) email_count).vocab_size : ℚ)) ∧
      e.prob_not_spam = ((e.not_spam_count : ℚ) + 1) /
        (((train_naive_bayes_tokens m (some emails) (some labels) email_count).total_not_spam_emails : ℚ)
          + ((train_naive_bayes_tokens m (some emails) (some labels) email_count).vocab_size : ℚ)) := by
  rw [train_unfold m emails labels email_count hpos]
  intro e hmem
  simp only [set_probabilities, List.mem_map] at hmem
  obtain ⟨e0, _, rfl⟩ := hmem
  simp [set_probabilities, SpamModel.vocab_size]

/-! ## Claims on training -/

/-- C1: on a fresh model, training on the single spam email `free free free` leaves one cell
whose `prob_spam` is `(3 + 1) / (1 + 1) = 2`, which is above 1: the count of token instances is
divided by a count of emails. -/
theorem C1_repeated_word_prob_spam_is_two :
    (train_naive_bayes_tokens create_model (some repeated_word_email) (some [1]) 1).vocabulary
      = [{ word := "free".toList, spam_count := 3, not_spam_count := 0,
           prob_spam := 2, prob_not_spam := 1 }] ∧
    ¬ ((2 : ℚ) ≤ 1) := by
  constructor
  · rw [train_unfold _ _ _ _ (by decide)]
    have h1 : (1 : Int).toNat = 1 := rfl
    have hloop : train_emails { create_model with total_spam_emails := 0, total_not_spam_emails := 0 }
        repeated_word_email [1] 1
        = { vocabulary := [{ word := "free".toList, spam_count := 3, not_spam_count := 0,
                             prob_spam := 0, prob_not_spam := 0 }]
            vocab_capacity := 5000
            total_spam_emails := 1
            total_not_spam_emails := 0
            prior_spam := 0
            prior_not_spam := 0 } := by decide
    rw [h1, hloop]
    simp [set_priors, set_probabilities, SpamModel.vocab_size]
    norm_num
  · norm_num

/-- C2: adding the same 100-character word twice to a fresh model leaves two cells, both
storing the same 99-character key: the lookup compares the stored key with the untruncated
word and never matches. -/
theorem C2_long_word_stored_twice :
    (add_word_to_vocab (add_word_to_vocab create_model long_word 1) long_word 1).vocabulary.map
        (fun e => e.word)
      = [List.replicate 99 'a', List.replicate 99 'a'] := by
  decide

/-- C3: for a 100-character word the second `add_word_to_vocab` call with the same word grows
`vocab_size` from 1 to 2 and leaves the counts of the cell made by the first call at (1, 0). -/
theorem C3_long_word_second_call_appends :
    (add_word_to_vocab create_model long_word 1).vocab_size = 1 ∧
    (add_word_to_vocab (add_word_to_vocab create_model long_word 1) long_word 1).vocab_size = 2 ∧
    (add_word_to_vocab (add_word_to_vocab create_model long_word 1) long_word 1).vocabulary.map
        (fun e => (e.spam_count, e.not_spam_count)) = [(1, 0), (1, 0)] := by
  decide

/-- C4 as stated fails: the demo vocabulary does not have 21 cells. -/
theorem C4_demo_vocab_size_not_21 : demo_model.vocab_size ≠ 21 := by
  decide

/-- C4, amended: training a fresh model on the six demo emails yields 24 cells, one per
distinct word of the sample. -/
theorem C4_demo_vocab_size : demo_model.vocab_size = 24 := by
  decide

/-- C8: after a training call with `email_count > 0` (both arrays holding at least
`email_count` cells), `prior_spam = total_spam_emails / email_count`,
`prior_not_spam = total_not_spam_emails / email_count`, and the two priors add up to 1. -/
theorem C8_priors (m : SpamModel) (emails : List TokenArray) (labels : List Int)
    (email_count : Int) (hpos : 0 < email_count)
    (he : email_count ≤ emails.length) (hl : email_count ≤ labels.length) :
    (train_naive_bayes_tokens m (some emails) (some labels) email_count).prior_spam
      = ((train_naive_bayes_tokens m (some emails) (some labels) email_count).total_spam_emails : ℚ)
          / (email_count : ℚ) ∧
    (train_naive_bayes_tokens m (some emails) (some labels) email_count).prior_not_spam
      = ((train_naive_bayes_tokens m (some emails) (some labels) email_count).total_not_spam_emails : ℚ)
          / (email_count : ℚ) ∧
    (train_naive_bayes_tokens m (some emails) (some labels) email_count).prior_spam
      + (train_naive_bayes_tokens m (some emails) (some labels) email_count).prior_not_spam = 1 :=
  train_priors m emails labels email_count hpos he hl

/-- C8 at the demo call. -/
theorem C8_priors_witness :
    demo_model.prior_spam = (demo_model.total_spam_emails : ℚ) / ((6 : Int) : ℚ) ∧
    demo_model.prior_not_spam = (demo_model.total_not_spam_emails : ℚ) / ((6 : Int) : ℚ) ∧
    demo_model.prior_spam + demo_model.prior_not_spam = 1 :=
  C8_priors create_model create_test_tokenized_emails demo_labels 6 (by decide) (by decide) (by decide)

/-- C9: training a fresh model on the six demo emails with labels `[1,0,1,0,1,0]` yields
`total_spam_emails = 3`, `total_not_spam_emails = 3` and both priors equal to one half. -/
theorem C9_demo_totals_and_priors :
    demo_model.total_spam_emails = 3 ∧ demo_model.total_not_spam_emails = 3 ∧
    demo_model.prior_spam = 1 / 2 ∧ demo_model.prior_not_spam = 1 / 2 := by
  rw [demo_model_eq]
  exact ⟨rfl, rfl, rfl, rfl⟩

/-- C10: after a training call with `email_count > 0`, every cell of the vocabulary has
`prob_spam = (spam_count + 1) / (total_spam_emails + vocab_size)` and
`prob_not_spam = (not_spam_count + 1) / (total_not_spam_emails + vocab_size)`, with the one
`vocab_size` of the model after the call, and the two totals are the numbers of spam and of
other labels among the `email_count` labels of this call. -/
theorem C10_smoothed_probabilities (m : SpamModel) (emails : List TokenArray) (labels : List Int)
    (email_count : Int) (hpos : 0 < email_count)
    (he : email_count ≤ emails.length) (hl : email_count ≤ labels.length) :
    (∀ e ∈ (train_naive_bayes_tokens m (some emails) (some labels) email_count).vocabulary,
      e.prob_spam = ((e.spam_count : ℚ) + 1) /
        (((train_naive_bayes_tokens m (some emails) (some labels) email_count).total_spam_emails : ℚ)
          + ((train_naive_bayes_tokens m (some emails) (some labels) email_count).vocab_size : ℚ)) ∧
      e.prob_not_spam = ((e.not_spam_count : ℚ) + 1) /
        (((train_naive_bayes_tokens m (some emails) (some labels) email_count).total_not_spam_emails : ℚ)
          + ((train_naive_bayes_tokens m (some emails) (some labels) email_count).vocab_size : ℚ))) ∧
    (train_naive_bayes_tokens m (some emails) (some labels) email_count).total_spam_emails
      = (count_spam_labels labels email_count.toNat : Int) ∧
    (train_naive_bayes_tokens m (some emails) (some labels) email_count).total_not_spam_emails
      = email_count - (count_spam_labels labels email_count.toNat : Int) := by
  exact ⟨train_smoothing m emails labels email_count hpos,
    train_totals m emails labels email_count hpos he hl⟩

/-- C10 at the demo call: the cell of `free` has the probabilities 2/27 and 1/27. -/
theorem C10_smoothed_probabilities_witness :
    (∀ e ∈ demo_model.vocabulary,
      e.prob_spam = ((e.spam_count : ℚ) + 1) /
        ((demo_model.total_spam_emails : ℚ) + (demo_model.vocab_size : ℚ)) ∧
      e.prob_not_spam = ((e.not_spam_count : ℚ) + 1) /
        ((demo_model.total_not_spam_emails : ℚ) + (demo_model.vocab_size : ℚ))) ∧
    demo_model.total_spam_emails = (count_spam_labels demo_labels (6 : Int).toNat : Int) ∧
    demo_model.total_not_spam_emails = 6 - (count_spam_labels demo_labels (6 : Int).toNat : Int) :=
  C10_smoothed_probabilities create_model create_test_tokenized_emails demo_labels 6
    (by decide) (by decide) (by decide)

/-! ## Scoring in product form -/

theorem CDouble.add_fin_fin (s : CDouble) (a b : ℝ) :
    (s.add (CDouble.fin a)).add (CDouble.fin b) = s.add (CDouble.fin (a + b)) := by
  cases s <;> simp [CDouble.add, add_assoc]

theorem CDouble.add_fin_zero (s : CDouble) : s.add (CDouble.fin 0) = s := by
  cases s <;> simp [CDouble.add]

theorem CDouble.log_fin_pos (x : ℝ) (hx : 0 < x) :
    CDouble.log (CDouble.fin x) = CDouble.fin (Real.log x) := by
  simp [CDouble.log, not_lt.mpr (le_of_lt hx), ne_of_gt hx]

theorem token_factor_pos (m : SpamModel)
    (hcells : ∀ e ∈ m.vocabulary, 0 < e.prob_spam ∧ 0 < e.prob_not_spam) (w : Word) :
    0 < (token_factor m w).1 ∧ 0 < (token_factor m w).2 := by
  unfold token_factor
  cases hf : find_word m w with
  | none =>
    have hv : (0 : ℚ) < ((m.vocab_size + 1 : Int) : ℚ) := by
      have : (0 : Int) < m.vocab_size + 1 := by
        unfold SpamModel.vocab_size; omega
      exact_mod_cast this
    simp only
    exact ⟨by positivity, by positivity⟩
  | some i =>
    simp only
    cases hg : m.vocabulary[i]? with
    | none => simp
    | some e =>
      simp only
      exact hcells e (List.getElem?_mem hg)

theorem score_step_eq (m : SpamModel)
    (hcells : ∀ e ∈ m.vocabulary, 0 < e.prob_spam ∧ 0 < e.prob_not_spam)
    (w : Word) (s t : CDouble) :
    score_step m w (s, t)
      = (s.add (CDouble.fin (Real.log ((token_factor m w).1 : ℝ))),
         t.add (CDouble.fin (Real.log ((token_factor m w).2 : ℝ)))) := by
  unfold score_step token_factor
  cases hf : find_word m w with
  | none =>
    have hv : (0 : ℝ) < ((m.vocab_size + 1 : Int) : ℝ) := by
      have : (0 : Int) < m.vocab_size + 1 := by
        unfold SpamModel.vocab_size; omega
      exact_mod_cast this
    have hpos : (0 : ℝ) < 1 / ((m.vocab_size + 1 : Int) : ℝ) := by positivity
    simp only [CDouble.log_fin_pos _ hpos]
    push_cast
    rfl
  | some i =>
    simp only
    cases hg : m.vocabulary[i]? with
    | none => simp [CDouble.add_fin_zero]
    | some e =>
      simp only
      obtain ⟨h1, h2⟩ := hcells e (List.getElem?_mem hg)
      have h1r : (0 : ℝ) < (e.prob_spam : ℝ) := by exact_mod_cast h1
      have h2r : (0 : ℝ) < (e.prob_not_spam : ℝ) := by exact_mod_cast h2
      rw [CDouble.log_fin_pos _ h1r, CDouble.log_fin_pos _ h2r]

theorem token_products_pos (m : SpamModel)
    (hcells : ∀ e ∈ m.vocabulary, 0 < e.prob_spam ∧ 0 < e.prob_not_spam)
    (ts : TokenArray) (n : Nat) :
    0 < (token_products m ts n).1 ∧ 0 < (token_products m ts n).2 := by
  induction ts generalizing n with
  | nil => simp [token_products]
  | cons t rest ih =>
    cases t with
    | none => simp [token_products]
    | some w =>
      cases n with
      | zero => simp [token_products]
      | succ k =>
        simp only [token_products]
        obtain ⟨f1, f2⟩ := token_factor_pos m hcells w
        obtain ⟨r1, r2⟩ := ih k
        exact ⟨mul_pos f1 r1, mul_pos f2 r2⟩

theorem score_tokens_eq (m : SpamModel)
    (hcells : ∀ e ∈ m.vocabulary, 0 < e.prob_spam ∧ 0 < e.prob_not_spam)
    (ts : TokenArray) (n : Nat) (s t : CDouble) :
    score_tokens m ts n (s, t)
      = (s.add (CDouble.fin (Real.log ((token_products m ts n).1 : ℝ))),
         t.add (CDouble.fin (Real.log ((token_products m ts n).2 : ℝ)))) := by
  induction ts generalizing n s t with
  | nil => simp [score_tokens, token_products, CDouble.add_fin_zero]
  | cons tok rest ih =>
    cases tok with
    | none => simp [score_tokens, token_products, CDouble.add_fin_zero]
    | some w =>
      cases n with
      | zero => simp [score_tokens, token_products, CDouble.add_fin_zero]
      | succ k =>
        simp only [score_tokens, token_products]
        rw [score_step_eq m hcells, ih, CDouble.add_fin_fin, CDouble.add_fin_fin]
        obtain ⟨f1, f2⟩ := token_factor_pos m hcells w
        obtain ⟨r1, r2⟩ := token_products_pos m hcells rest k
        have f1r : ((token_factor m w).1 : ℝ) ≠ 0 := by exact_mod_cast ne_of_gt f1
        have f2r : ((token_factor m w).2 : ℝ) ≠ 0 := by exact_mod_cast ne_of_gt f2
        have r1r : ((token_products m rest k).1 : ℝ) ≠ 0 := by exact_mod_cast ne_of_gt r1
        have r2r : ((token_products m rest k).2 : ℝ) ≠ 0 := by exact_mod_cast ne_of_gt r2
        push_cast
        rw [Real.log_mul f1r r1r, Real.log_mul f2r r2r]

theorem normalize_fin_fin (a b : ℝ) :
    normalize_scores (CDouble.fin a) (CDouble.fin b)
      = CDouble.fin (Real.exp a / (Real.exp a + Real.exp b)) := by
  have ha := Real.exp_pos a
  have hb := Real.exp_pos b
  unfold normalize_scores
  by_cases h : a > b
  · have hd : Real.exp (a - a) + Real.exp (b - a) ≠ 0 :=
      ne_of_gt (add_pos (Real.exp_pos _) (Real.exp_pos _))
    simp only [CDouble.gt, h, decide_True, if_true, CDouble.sub, CDouble.exp, CDouble.add,
      CDouble.div, hd, if_false]
    congr 1
    rw [Real.exp_sub, Real.exp_sub]
    field_simp
  · have hd : Real.exp (a - b) + Real.exp (b - b) ≠ 0 :=
      ne_of_gt (add_pos (Real.exp_pos _) (Real.exp_pos _))
    simp only [CDouble.gt, h, decide_False, if_false, CDouble.sub, CDouble.exp, CDouble.add,
      CDouble.div, hd, Bool.false_eq_true]
    congr 1
    rw [Real.exp_sub, Real.exp_sub]
    field_simp

theorem normalize_negInf_fin (b : ℝ) :
    normalize_scores CDouble.negInf (CDouble.fin b) = CDouble.fin 0 := by
  simp [normalize_scores, CDouble.gt, CDouble.sub, CDouble.exp, CDouble.add, CDouble.div]

theorem normalize_fin_negInf (a : ℝ) :
    normalize_scores (CDouble.fin a) CDouble.negInf = CDouble.fin 1 := by
  simp [normalize_scores, CDouble.gt, CDouble.sub, CDouble.exp, CDouble.add, CDouble.div]

/-- With a non-empty vocabulary, positive priors and positive cell probabilities the value
returned by the log-space code is the direct Bayes ratio. -/
theorem predict_eq_bayes_ratio (m : SpamModel) (ts : TokenArray) (token_count : Int)
    (hv : m.vocab_size ≠ 0) (hs : 0 < m.prior_spam) (hn : 0 < m.prior_not_spam)
    (hcells : ∀ e ∈ m.vocabulary, 0 < e.prob_spam ∧ 0 < e.prob_not_spam) :
    predict_spam_probability_tokens m (some ts) token_count
      = CDouble.fin ((bayes_ratio m ts token_count.toNat : ℚ) : ℝ) := by
  have hsr : (0 : ℝ) < (m.prior_spam : ℝ) := by exact_mod_cast hs
  have hnr : (0 : ℝ) < (m.prior_not_spam : ℝ) := by exact_mod_cast hn
  obtain ⟨p1, p2⟩ := token_products_pos m hcells ts token_count.toNat
  have p1r : (0 : ℝ) < ((token_products m ts token_count.toNat).1 : ℝ) := by exact_mod_cast p1
  have p2r : (0 : ℝ) < ((token_products m ts token_count.toNat).2 : ℝ) := by exact_mod_cast p2
  simp only [predict_spam_probability_tokens, hv, if_false]
  rw [score_tokens_eq m hcells, CDouble.log_fin_pos _ hsr, CDouble.log_fin_pos _ hnr]
  simp only [CDouble.add]
  rw [normalize_fin_fin, Real.exp_add, Real.exp_add, Real.exp_log hsr, Real.exp_log hnr,
    Real.exp_log p1r, Real.exp_log p2r]
  unfold bayes_ratio
  push_cast
  rfl

/-- On a model in the state the scoring code expects, the returned value is a real number
between 0 and 1. -/
theorem predict_in_unit_interval (m : SpamModel) (ts : TokenArray) (token_count : Int)
    (hv : m.vocab_size ≠ 0) (hready : scoring_ready m) :
    ∃ p : ℝ, predict_spam_probability_tokens m (some ts) token_count = CDouble.fin p ∧
      0 ≤ p ∧ p ≤ 1 := by
  obtain ⟨hs, hn, hor, hcells⟩ := hready
  obtain ⟨p1, p2⟩ := token_products_pos m hcells ts token_count.toNat
  rcases lt_or_eq_of_le hs with hs1 | hs0
  · rcases lt_or_eq_of_le hn with hn1 | hn0
    · refine ⟨_, predict_eq_bayes_ratio m ts token_count hv hs1 hn1 hcells, ?_, ?_⟩
      · have : 0 ≤ bayes_ratio m ts token_count.toNat := by
          unfold bayes_ratio; positivity
        exact_mod_cast this
      · have : bayes_ratio m ts token_count.toNat ≤ 1 := by
          unfold bayes_ratio
          rw [div_le_one (by positivity)]
          have := mul_pos hn1 p2
          linarith
        exact_mod_cast this
    · refine ⟨1, ?_, by norm_num, le_refl _⟩
      have hsr : (0 : ℝ) < (m.prior_spam : ℝ) := by exact_mod_cast hs1
      simp only [predict_spam_probability_tokens, hv, if_false]
      rw [score_tokens_eq m hcells, CDouble.log_fin_pos _ hsr, ← hn0]
      simp [CDouble.log, CDouble.add, normalize_fin_negInf]
  · have hn1 : 0 < m.prior_not_spam := by
      rcases hor with h | h
      · rw [← hs0] at h; exact absurd h (lt_irrefl _)
      · exact h
    refine ⟨0, ?_, le_refl _, by norm_num⟩
    have hnr : (0 : ℝ) < (m.prior_not_spam : ℝ) := by exact_mod_cast hn1
    simp only [predict_spam_probability_tokens, hv, if_false]
    rw [score_tokens_eq m hcells, CDouble.log_fin_pos _ hnr, ← hs0]
    simp [CDouble.log, CDouble.add, normalize_negInf_fin]

/-! ## Training leaves the model in the state the scoring code expects -/

theorem update_at_mem (f : WordProbability → WordProbability) (l : List WordProbability) (i : Nat)
    (e' : WordProbability) (h : e' ∈ update_at f l i) : e' ∈ l ∨ ∃ e ∈ l, e' = f e := by
  induction l generalizing i with
  | nil => simp [update_at] at h
  | cons a rest ih =>
    cases i with
    | zero =>
      simp only [update_at, List.mem_cons] at h
      rcases h with h | h
      · exact Or.inr ⟨a, by simp, h⟩
      · exact Or.inl (by simp [h])
    | succ k =>
      simp only [update_at, List.mem_cons] at h
      rcases h with h | h
      · exact Or.inl (by simp [h])
      · rcases ih k h with h1 | ⟨e, he, rfl⟩
        · exact Or.inl (by simp [h1])
        · exact Or.inr ⟨e, by simp [he], rfl⟩

theorem add_word_to_vocab_counts_nonneg (m : SpamModel) (w : Word) (l : Int)
    (hm : counts_nonneg m) : counts_nonneg (add_word_to_vocab m w l) := by
  unfold add_word_to_vocab
  split
  · split
    · intro e' he'
      rcases update_at_mem _ _ _ _ he' with h | ⟨e, he, rfl⟩
      · exact hm e' h
      · have := hm e he
        exact ⟨by dsimp only; omega, this.2⟩
    · intro e' he'
      rcases update_at_mem _ _ _ _ he' with h | ⟨e, he, rfl⟩
      · exact hm e' h
      · have := hm e he
        exact ⟨this.1, by dsimp only; omega⟩
  · intro e' he'
    have hvoc : ∀ m1 : SpamModel, m1.vocabulary = m.vocabulary → ∀ c : WordProbability,
        (0 ≤ c.spam_count ∧ 0 ≤ c.not_spam_count) → e' ∈ m1.vocabulary ++ [c] →
        0 ≤ e'.spam_count ∧ 0 ≤ e'.not_spam_count := by
      intro m1 h1 c hc hmem
      rw [h1] at hmem
      rcases List.mem_append.mp hmem with h | h
      · exact hm e' h
      · simp only [List.mem_singleton] at h
        rw [h]; exact hc
    refine hvoc _ ?_ _ ?_ he'
    · split <;> rfl
    · split <;> simp

theorem add_tokens_counts_nonneg (ts : TokenArray) (m : SpamModel) (l : Int)
    (hm : counts_nonneg m) : counts_nonneg (add_tokens m ts l) := by
  induction ts generalizing m with
  | nil => simpa [add_tokens] using hm
  | cons t rest ih =>
    cases t with
    | none => simpa [add_tokens] using hm
    | some w =>
      simp only [add_tokens]
      exact ih _ (add_word_to_vocab_counts_nonneg m w l hm)

theorem train_emails_counts_nonneg (emails : List TokenArray) (labels : List Int) (n : Nat)
    (m : SpamModel) (hm : counts_nonneg m) : counts_nonneg (train_emails m emails labels n) := by
  induction n generalizing m emails labels with
  | zero => cases emails <;> cases labels <;> simpa [train_emails] using hm
  | succ k ih =>
    cases emails with
    | nil => simpa [train_emails] using hm
    | cons ts es =>
      cases labels with
      | nil => simpa [train_emails] using hm
      | cons l ls =>
        simp only [train_emails]
        apply ih
        apply add_tokens_counts_nonneg
        split <;> exact hm

theorem count_spam_labels_le (labels : List Int) (n : Nat) : count_spam_labels labels n ≤ n := by
  unfold count_spam_labels
  calc ((labels.take n).filter (fun l => l = 1)).length
      ≤ (labels.take n).length := List.length_filter_le _ _
    _ ≤ n := by simp

/-- After a training call with `email_count > 0` on a model with non-negative counts, the
priors are non-negative and not both zero, every cell has positive probabilities, and the
counts are still non-negative. -/
theorem train_scoring_ready (m : SpamModel) (emails : List TokenArray) (labels : List Int)
    (email_count : Int) (hm : counts_nonneg m) (hpos : 0 < email_count)
    (he : email_count ≤ emails.length) (hl : email_count ≤ labels.length) :
    scoring_ready (train_naive_bayes_tokens m (some emails) (some labels) email_count) ∧
    counts_nonneg (train_naive_bayes_tokens m (some emails) (some labels) email_count) := by
  obtain ⟨hp1, hp2, hsum⟩ := train_priors m emails labels email_count hpos he hl
  obtain ⟨ht1, ht2⟩ := train_totals m emails labels email_count hpos he hl
  have hle := count_spam_labels_le labels email_count.toNat
  have hq : (0 : ℚ) < (email_count : ℚ) := by exact_mod_cast hpos
  have hs0 : (0 : Int) ≤ (train_naive_bayes_tokens m (some emails) (some labels)
      email_count).total_spam_emails := by rw [ht1]; omega
  have hn0 : (0 : Int) ≤ (train_naive_bayes_tokens m (some emails) (some labels)
      email_count).total_not_spam_emails := by rw [ht2]; omega
  have hs0q : (0 : ℚ) ≤ ((train_naive_bayes_tokens m (some emails) (some labels)
      email_count).total_spam_emails : ℚ) := by exact_mod_cast hs0
  have hn0q : (0 : ℚ) ≤ ((train_naive_bayes_tokens m (some emails) (some labels)
      email_count).total_not_spam_emails : ℚ) := by exact_mod_cast hn0
  have hps : 0 ≤ (train_naive_bayes_tokens m (some emails) (some labels) email_count).prior_spam := by
    rw [hp1]; positivity
  have hpn : 0 ≤ (train_naive_bayes_tokens m (some emails) (some labels) email_count).prior_not_spam := by
    rw [hp2]; positivity
  have hcn : counts_nonneg (train_naive_bayes_tokens m (some emails) (some labels) email_count) := by
    rw [train_unfold m emails labels email_count hpos]
    have hmid := train_emails_counts_nonneg emails labels email_count.toNat
      { m with total_spam_emails := 0, total_not_spam_emails := 0 } hm
    intro e hmem
    simp only [set_probabilities, List.mem_map] at hmem
    obtain ⟨e0, he0, rfl⟩ := hmem
    rw [(set_priors_frame _).2.2.1] at he0
    exact hmid e0 he0
  refine ⟨⟨hps, hpn, ?_, ?_⟩, hcn⟩
  · by_contra hcon
    push_neg at hcon
    have h1 := le_antisymm hcon.1 hps
    have h2 := le_antisymm hcon.2 hpn
    rw [h1, h2] at hsum
    norm_num at hsum
  · intro e hmem
    obtain ⟨h1, h2⟩ := (train_smoothing m emails labels email_count hpos) e hmem
    obtain ⟨c1, c2⟩ := hcn e hmem
    have c1q : (0 : ℚ) ≤ (e.spam_count : ℚ) := by exact_mod_cast c1
    have c2q : (0 : ℚ) ≤ (e.not_spam_count : ℚ) := by exact_mod_cast c2
    have hvs : (0 : ℚ) < ((train_naive_bayes_tokens m (some emails) (some labels)
        email_count).vocab_size : ℚ) := by
      have : (0 : Int) < (train_naive_bayes_tokens m (some emails) (some labels)
          email_count).vocab_size := by
        unfold SpamModel.vocab_size
        have := List.length_pos_of_mem hmem
        omega
      exact_mod_cast this
    rw [h1, h2]
    constructor <;> positivity

/-! ## Claims on scoring and classification -/

theorem demo_scoring_ready : scoring_ready demo_model := by
  rw [demo_model_eq]
  simp [scoring_ready, demo_vocabulary, demo_cell]

theorem demo_test1_products :
    token_products demo_model test1 3 = (2 / 27 * (2 / 27 * (2 / 27 * 1)), 1 / 27 * (1 / 27 * (1 / 27 * 1))) := by
  have h1 : find_word demo_model "free".toList = some 3 := by rw [demo_model_eq]; decide
  have h2 : find_word demo_model "money".toList = some 19 := by rw [demo_model_eq]; decide
  have h3 : find_word demo_model "winner".toList = some 16 := by rw [demo_model_eq]; decide
  simp only [test1, token_products, token_factor, h1, h2, h3]
  rw [demo_model_eq]
  simp [demo_vocabulary, demo_cell]

theorem demo_test1_probability :
    predict_spam_probability_tokens demo_model (some test1) 3 = CDouble.fin (8 / 9) := by
  obtain ⟨_, _, _, hcells⟩ := demo_scoring_ready
  have hv : demo_model.vocab_size ≠ 0 := by decide
  have hs : 0 < demo_model.prior_spam := by rw [demo_model_eq]; norm_num
  have hn : 0 < demo_model.prior_not_spam := by rw [demo_model_eq]; norm_num
  rw [predict_eq_bayes_ratio demo_model test1 3 hv hs hn hcells]
  have h3 : (3 : Int).toNat = 3 := rfl
  have hr : bayes_ratio demo_model test1 3 = 8 / 9 := by
    unfold bayes_ratio
    rw [demo_test1_products]
    rw [demo_model_eq]
    norm_num
  rw [h3, hr]
  norm_num

/-- C5 as stated fails: on the demo model the probability of `[free, money, winner]` is not
above 0.99. -/
theorem C5_demo_probability_not_above_099 :
    ¬ ∃ p : ℝ, predict_spam_probability_tokens demo_model (some test1) 3 = CDouble.fin p ∧
      99 / 100 < p := by
  rintro ⟨p, hp, hlt⟩
  rw [demo_test1_probability] at hp
  have hpe : (8 / 9 : ℝ) = p := CDouble.fin.inj hp
  rw [← hpe] at hlt
  norm_num at hlt

/-- C5, amended: on the demo model `predict_spam_probability_tokens` returns exactly 8/9 for
the query `[free, money, winner]` with `token_count` 3 (each of the three words is twice as
likely under spam, and the priors are equal), a value above 0.5. -/
theorem C5_demo_probability :
    predict_spam_probability_tokens demo_model (some test1) 3 = CDouble.fin (8 / 9) ∧
    ((1 : ℝ) / 2 < 8 / 9) := by
  exact ⟨demo_test1_probability, by norm_num⟩

theorem untrained_model_eq :
    untrained_model = { vocabulary := [{ word := "x".toList, spam_count := 1, not_spam_count := 0,
                                         prob_spam := 0, prob_not_spam := 0 }]
                        vocab_capacity := 5000
                        total_spam_emails := 0
                        total_not_spam_emails := 0
                        prior_spam := 0
                        prior_not_spam := 0 } := by
  decide

theorem untrained_model_probability :
    predict_spam_probability_tokens untrained_model (some [some "x".toList, none]) 1
      = CDouble.nan := by
  have hv : untrained_model.vocab_size ≠ 0 := by decide
  have hf : find_word untrained_model "x".toList = some 0 := by decide
  have h1 : (1 : Int).toNat = 1 := rfl
  simp only [predict_spam_probability_tokens, hv, if_false, h1, score_tokens, score_step, hf]
  rw [untrained_model_eq]
  simp [CDouble.log, CDouble.add, normalize_scores, CDouble.gt, CDouble.sub, CDouble.exp,
    CDouble.div]

/-- C6 as stated fails: on a model with one cell and both priors zero (cells added, no
training) both scores are `-inf`, their difference is `NaN`, and no real number between 0 and 1
is returned. -/
theorem C6_untrained_model_returns_nan :
    ¬ ∃ p : ℝ, predict_spam_probability_tokens untrained_model (some [some "x".toList, none]) 1
        = CDouble.fin p ∧ 0 ≤ p ∧ p ≤ 1 := by
  rintro ⟨p, hp, _⟩
  rw [untrained_model_probability] at hp
  cases hp

/-- C6, amended: for every model that has an empty vocabulary or is in the state training
leaves (priors non-negative and not both zero, positive probabilities in every cell), every
token array and every `token_count`, `predict_spam_probability_tokens` returns a real `p`
with `0 <= p <= 1`; and it returns exactly 0 whenever the vocabulary is empty. -/
theorem C6_probability_range (m : SpamModel) (tokens : Option TokenArray) (token_count : Int)
    (hready : m.vocab_size ≠ 0 → scoring_ready m) :
    (∃ p : ℝ, predict_spam_probability_tokens m tokens token_count = CDouble.fin p ∧
      0 ≤ p ∧ p ≤ 1) ∧
    (m.vocab_size = 0 → predict_spam_probability_tokens m tokens token_count = CDouble.fin 0) := by
  constructor
  · cases tokens with
    | none => exact ⟨0, rfl, le_refl _, by norm_num⟩
    | some ts =>
      by_cases hv : m.vocab_size = 0
      · exact ⟨0, by simp [predict_spam_probability_tokens, hv], le_refl _, by norm_num⟩
      · exact predict_in_unit_interval m ts token_count hv (hready hv)
  · intro hv
    cases tokens with
    | none => rfl
    | some ts => simp [predict_spam_probability_tokens, hv]

/-- C6 at the demo model and at the fresh model. -/
theorem C6_probability_range_witness :
    (∃ p : ℝ, predict_spam_probability_tokens demo_model (some test1) 3 = CDouble.fin p ∧
      0 ≤ p ∧ p ≤ 1) ∧
    predict_spam_probability_tokens create_model (some test1) 3 = CDouble.fin 0 :=
  ⟨(C6_probability_range demo_model (some test1) 3 (fun _ => demo_scoring_ready)).1,
   (C6_probability_range create_model (some test1) 3 (fun h => absurd rfl h)).2 rfl⟩

/-- C7: `classify_email_tokens` returns 1 exactly when the probability is `>=` the threshold
and 0 otherwise; for a real probability `p` and a real threshold `q` that is `q <= p`, so a
probability equal to the threshold classifies as spam. -/
theorem C7_classify_iff_ge (m : SpamModel) (tokens : Option TokenArray) (token_count : Int)
    (threshold : CDouble) :
    (classify_email_tokens m tokens token_count threshold = 1 ↔
      CDouble.ge (predict_spam_probability_tokens m tokens token_count) threshold = true) ∧
    (classify_email_tokens m tokens token_count threshold = 0 ↔
      CDouble.ge (predict_spam_probability_tokens m tokens token_count) threshold = false) ∧
    (∀ p q : ℝ, predict_spam_probability_tokens m tokens token_count = CDouble.fin p →
      threshold = CDouble.fin q →
      (classify_email_tokens m tokens token_count threshold = 1 ↔ q ≤ p)) ∧
    (∀ p : ℝ, predict_spam_probability_tokens m tokens token_count = CDouble.fin p →
      classify_email_tokens m tokens token_count (CDouble.fin p) = 1) := by
  refine ⟨?_, ?_, ?_, ?_⟩
  · unfold classify_email_tokens
    split <;> simp_all
  · unfold classify_email_tokens
    split <;> simp_all
  · intro p q hp hq
    unfold classify_email_tokens
    rw [hp, hq]
    simp [CDouble.ge]
  · intro p hp
    unfold classify_email_tokens
    rw [hp]
    simp [CDouble.ge]

/-! ## Claims on no-op training calls and on appending a word -/

/-- C12: `train_naive_bayes_tokens` called with a `NULL` email array, a `NULL` label array or
`email_count <= 0` returns the model unchanged in every field. -/
theorem C12_invalid_training_call_is_noop (m : SpamModel)
    (tokenized_emails : Option (List TokenArray)) (labels : Option (List Int)) (email_count : Int)
    (h : tokenized_emails = none ∨ labels = none ∨ email_count ≤ 0) :
    train_naive_bayes_tokens m tokenized_emails labels email_count = m := by
  unfold train_naive_bayes_tokens
  rcases h with h | h | h
  · subst h; rfl
  · subst h; cases tokenized_emails <;> rfl
  · cases tokenized_emails with
    | none => rfl
    | some emails =>
      cases labels with
      | none => rfl
      | some ls => simp [h]

/-- C12 on the trained demo model (its priors stay 1/2) and on the fresh model (its priors
stay 0), for a zero count, a `NULL` email array and a `NULL` label array. -/
theorem C12_invalid_training_call_is_noop_witness :
    train_naive_bayes_tokens demo_model (some create_test_tokenized_emails) (some demo_labels) 0
      = demo_model ∧
    train_naive_bayes_tokens create_model none (some demo_labels) 6 = create_model ∧
    train_naive_bayes_tokens create_model (some create_test_tokenized_emails) none 6
      = create_model :=
  ⟨C12_invalid_training_call_is_noop demo_model _ _ 0 (Or.inr (Or.inr (le_refl _))),
   C12_invalid_training_call_is_noop create_model none _ 6 (Or.inl rfl),
   C12_invalid_training_call_is_noop create_model _ none 6 (Or.inr (Or.inl rfl))⟩

/-- C13: for a model with `vocab_size <= vocab_capacity` and a word `find_word` does not find,
`add_word_to_vocab` appends one cell after the old ones: `vocab_size` grows by 1, every old
cell keeps its index and content, the new last cell has the matching count 1, the other count
0 and both probabilities 0, and `vocab_capacity` doubles exactly when the array was full. -/
theorem C13_append_new_word (m : SpamModel) (word : Word) (is_spam : Int)
    (hcap : m.vocab_size ≤ m.vocab_capacity) (hnone : find_word m word = none) :
    (add_word_to_vocab m word is_spam).vocab_size = m.vocab_size + 1 ∧
    (∀ (i : Nat) (e : WordProbability), m.vocabulary[i]? = some e →
      (add_word_to_vocab m word is_spam).vocabulary[i]? = some e) ∧
    (add_word_to_vocab m word is_spam).vocabulary
      = m.vocabulary ++ [{ word := word.take (MAX_WORD_LENGTH - 1)
                           spam_count := if is_spam = 1 then 1 else 0
                           not_spam_count := if is_spam = 1 then 0 else 1
                           prob_spam := 0
                           prob_not_spam := 0 }] ∧
    (add_word_to_vocab m word is_spam).vocab_capacity
      = (if m.vocab_size = m.vocab_capacity then m.vocab_capacity * 2 else m.vocab_capacity) := by
  have hvoc : (add_word_to_vocab m word is_spam).vocabulary
      = m.vocabulary ++ [{ word := word.take (MAX_WORD_LENGTH - 1)
                           spam_count := if is_spam = 1 then 1 else 0
                           not_spam_count := if is_spam = 1 then 0 else 1
                           prob_spam := 0
                           prob_not_spam := 0 }] := by
    unfold add_word_to_vocab
    simp only [hnone]
    by_cases hc : m.vocab_size ≥ m.vocab_capacity <;> by_cases hs : is_spam = 1 <;> simp [hc, hs]
  refine ⟨?_, ?_, hvoc, ?_⟩
  · simp [SpamModel.vocab_size, hvoc]
  · intro i e hi
    rw [hvoc]
    have hlt : i < m.vocabulary.length := by
      by_contra hge
      rw [List.getElem?_eq_none (not_lt.mp hge)] at hi
      cases hi
    rw [List.getElem?_append_left hlt]
    exact hi
  · unfold add_word_to_vocab
    simp only [hnone]
    by_cases hc : m.vocab_size = m.vocab_capacity
    · simp [hc]
    · have hlt : ¬ m.vocab_size ≥ m.vocab_capacity := by omega
      simp [hc, hlt]

/-- C13 on the fresh model (capacity 5000 stays) and on a full one-cell model (capacity 1
becomes 2). -/
theorem C13_append_new_word_witness :
    ((add_word_to_vocab create_model "free".toList 1).vocab_size = create_model.vocab_size + 1 ∧
     (add_word_to_vocab create_model "free".toList 1).vocab_capacity = 5000) ∧
    ((add_word_to_vocab full_model "free".toList 0).vocab_size = 2 ∧
     (add_word_to_vocab full_model "free".toList 0).vocab_capacity = 2) :=
  ⟨⟨(C13_append_new_word create_model "free".toList 1 (by decide) (by decide)).1,
    (C13_append_new_word create_model "free".toList 1 (by decide) (by decide)).2.2.2⟩,
   ⟨(C13_append_new_word full_model "free".toList 0 (by decide) (by decide)).1,
    (C13_append_new_word full_model "free".toList 0 (by decide) (by decide)).2.2.2⟩⟩

/-! ## Claims on the classifier wrapper -/

/-- C18 as stated fails: with `tokens == NULL` the call returns at once, and
`total_predictions` of a new classifier stays 0. -/
theorem C18_null_tokens_not_counted :
    (classifier_predict_tokens (create_classifier (CDouble.fin 0)) none 3).1.total_predictions = 0 ∧
    (classifier_predict_tokens (create_classifier (CDouble.fin 0)) none 3).2 = 0 ∧
    classify_email_tokens (create_classifier (CDouble.fin 0)).model none 3
      (create_classifier (CDouble.fin 0)).classification_threshold = 1 := by
  refine ⟨rfl, rfl, ?_⟩
  simp [classify_email_tokens, predict_spam_probability_tokens, create_classifier, CDouble.ge]

/-- C18, amended: for every classifier, every non-`NULL` token array (empty or not) and every
`token_count`, `classifier_predict_tokens` returns
`classify_email_tokens(model, tokens, token_count, classification_threshold)` and adds exactly
1 to `total_predictions`, leaving `correct_predictions`, the threshold and the model
unchanged; with `tokens == NULL` it returns 0 and leaves the classifier unchanged. -/
theorem C18_predict_counts_attempt (c : Classifier) (ts : TokenArray) (token_count : Int) :
    (classifier_predict_tokens c (some ts) token_count).2
      = classify_email_tokens c.model (some ts) token_count c.classification_threshold ∧
    (classifier_predict_tokens c (some ts) token_count).1.total_predictions
      = c.total_predictions + 1 ∧
    (classifier_predict_tokens c (some ts) token_count).1.correct_predictions
      = c.correct_predictions ∧
    (classifier_predict_tokens c (some ts) token_count).1.classification_threshold
      = c.classification_threshold ∧
    (classifier_predict_tokens c (some ts) token_count).1.model = c.model ∧
    classifier_predict_tokens c none token_count = (c, 0) :=
  ⟨rfl, rfl, rfl, rfl, rfl, rfl⟩

theorem reachable_correct_zero (c : Classifier) (h : ClassifierReachable c) :
    c.correct_predictions = 0 := by
  induction h with
  | create threshold => rfl
  | train c tokenized_emails labels email_count _ ih =>
    cases tokenized_emails <;> exact ih
  | predict c tokens token_count _ ih =>
    cases tokens <;> exact ih
  | reset c _ _ => rfl

/-- C19: in every classifier state reached from `create_classifier` by training, prediction
and reset calls `correct_predictions` is 0 and `get_classifier_accuracy` returns 0; and for
every classifier `get_classifier_accuracy` is `correct_predictions / total_predictions` when
`total_predictions != 0` and 0 when it is 0. -/
theorem C19_accuracy (c : Classifier) (h : ClassifierReachable c) :
    c.correct_predictions = 0 ∧ get_classifier_accuracy c = 0 ∧
    (∀ d : Classifier,
      (d.total_predictions ≠ 0 →
        get_classifier_accuracy d = (d.correct_predictions : ℚ) / (d.total_predictions : ℚ)) ∧
      (d.total_predictions = 0 → get_classifier_accuracy d = 0)) := by
  have h0 := reachable_correct_zero c h
  refine ⟨h0, ?_, ?_⟩
  · unfold get_classifier_accuracy
    split
    · rfl
    · rw [h0]; simp
  · intro d
    unfold get_classifier_accuracy
    constructor
    · intro hd; simp [hd]
    · intro hd; simp [hd]

/-- C19 on the demo classifier after one prediction. -/
theorem C19_accuracy_witness :
    (classifier_predict_tokens demo_classifier (some test1) 3).1.correct_predictions = 0 ∧
    get_classifier_accuracy (classifier_predict_tokens demo_classifier (some test1) 3).1 = 0 ∧
    (∀ d : Classifier,
      (d.total_predictions ≠ 0 →
        get_classifier_accuracy d = (d.correct_predictions : ℚ) / (d.total_predictions : ℚ)) ∧
      (d.total_predictions = 0 → get_classifier_accuracy d = 0)) :=
  C19_accuracy _ (ClassifierReachable.predict _ _ _
    (ClassifierReachable.train _ _ _ _ (ClassifierReachable.create _)))

/-- C20: `reset_classifier_stats` sets both counters to 0 and leaves the model and the
threshold unchanged; `classifier_train_tokens` replaces the model by the result of
`train_naive_bayes_tokens` on it and leaves both counters and the threshold unchanged. -/
theorem C20_reset_and_train_frames (c : Classifier) (tokenized_emails : Option (List TokenArray))
    (labels : Option (List Int)) (email_count : Int) :
    (reset_classifier_stats c).total_predictions = 0 ∧
    (reset_classifier_stats c).correct_predictions = 0 ∧
    (reset_classifier_stats c).model = c.model ∧
    (reset_classifier_stats c).classification_threshold = c.classification_threshold ∧
    (classifier_train_tokens c tokenized_emails labels email_count).model
      = train_naive_bayes_tokens c.model tokenized_emails labels email_count ∧
    (classifier_train_tokens c tokenized_emails labels email_count).total_predictions
      = c.total_predictions ∧
    (classifier_train_tokens c tokenized_emails labels email_count).correct_predictions
      = c.correct_predictions ∧
    (classifier_train_tokens c tokenized_emails labels email_count).classification_threshold
      = c.classification_threshold := by
  refine ⟨rfl, rfl, rfl, rfl, ?_, ?_, ?_, ?_⟩ <;> cases tokenized_emails <;> rfl

/-! ## Word counts across training calls -/

theorem add_cells_found (w : Word) (l : Int) (voc : List WordProbability) (i : Nat)
    (h : find_index voc w = some i) :
    add_cells voc w l
      = update_at (fun e => if l = 1 then { e with spam_count := e.spam_count + 1 }
          else { e with not_spam_count := e.not_spam_count + 1 }) voc i := by
  induction voc generalizing i with
  | nil => simp [find_index] at h
  | cons e rest ih =>
    simp only [find_index] at h
    by_cases he : e.word = w
    · simp only [he, if_true, Option.some.injEq] at h
      subst h
      simp [add_cells, update_at, he]
    · simp only [he, if_false] at h
      cases hr : find_index rest w with
      | none => simp [hr] at h
      | some j =>
        simp [hr] at h
        subst h
        simp [add_cells, update_at, he, ih j hr]

theorem add_cells_not_found (w : Word) (l : Int) (voc : List WordProbability)
    (h : find_index voc w = none) :
    add_cells voc w l = voc ++ add_cells [] w l := by
  induction voc with
  | nil => rfl
  | cons e rest ih =>
    simp only [find_index] at h
    by_cases he : e.word = w
    · simp [he] at h
    · simp only [he, if_false] at h
      have hr : find_index rest w = none := by
        cases hr : find_index rest w with
        | none => rfl
        | some j => simp [hr] at h
      simp [add_cells, he, ih hr]

theorem add_word_to_vocab_vocabulary (m : SpamModel) (w : Word) (l : Int) :
    (add_word_to_vocab m w l).vocabulary = add_cells m.vocabulary w l := by
  cases hf : find_word m w with
  | some i =>
    rw [add_cells_found w l m.vocabulary i hf]
    unfold add_word_to_vocab
    simp only [hf]
    by_cases hl : l = 1 <;> simp [hl]
  | none =>
    rw [add_cells_not_found w l m.vocabulary hf]
    unfold add_word_to_vocab
    simp only [hf]
    by_cases hc : m.vocab_size ≥ m.vocab_capacity <;> by_cases hl : l = 1 <;>
      simp [hc, hl, add_cells]

theorem word_counts_eq_cell_counts (m : SpamModel) (w : Word) :
    word_counts m w = cell_counts m.vocabulary w := by
  unfold word_counts find_word
  generalize m.vocabulary = voc
  induction voc with
  | nil => simp [find_index, cell_counts]
  | cons e rest ih =>
    by_cases he : e.word = w
    · simp [find_index, cell_counts, he]
    · simp only [find_index, cell_counts, he, if_false]
      cases hr : find_index rest w with
      | none => simpa [hr] using ih
      | some j => simpa [hr] using ih

/-- The increment one `add_word_to_vocab(word, is_spam)` call makes to the counts of `w`. -/
theorem cell_counts_add_cells (w' : Word) (l : Int) (w : Word)
    (hshort : w'.length < MAX_WORD_LENGTH) (voc : List WordProbability) :
    (cell_counts (add_cells voc w' l) w).1
      = (cell_counts voc w).1 + (if w' = w ∧ l = 1 then 1 else 0) ∧
    (cell_counts (add_cells voc w' l) w).2
      = (cell_counts voc w).2 + (if w' = w ∧ ¬ l = 1 then 1 else 0) := by
  induction voc with
  | nil =>
    simp only [add_cells, take_short w' hshort]
    by_cases hl : l = 1 <;> by_cases hw : w' = w <;> simp [cell_counts, hl, hw]
  | cons e rest ih =>
    by_cases he : e.word = w'
    · by_cases hw : w' = w
      · subst hw
        by_cases hl : l = 1 <;> simp [add_cells, cell_counts, he, hl]
      · have hew : ¬ e.word = w := by rw [he]; exact hw
        by_cases hl : l = 1 <;> simp [add_cells, cell_counts, he, hl, hw, hew]
    · by_cases hew : e.word = w
      · have hw : ¬ w' = w := by
          intro h; apply he; rw [hew, h]
        have hww : ¬ w = w' := fun h => hw h.symm
        simp [add_cells, cell_counts, hew, hw, hww]
      · simp only [add_cells, cell_counts, he, hew, if_false]
        exact ih

theorem cell_counts_add_tokens (w : Word) (l : Int) (ts : TokenArray) (m : SpamModel)
    (hshort : ∀ t ∈ tokens_before_null ts, t.length < MAX_WORD_LENGTH) :
    (cell_counts (add_tokens m ts l).vocabulary w).1
      = (cell_counts m.vocabulary w).1
        + (if l = 1 then ((tokens_before_null ts).count w : Int) else 0) ∧
    (cell_counts (add_tokens m ts l).vocabulary w).2
      = (cell_counts m.vocabulary w).2
        + (if l = 1 then 0 else ((tokens_before_null ts).count w : Int)) := by
  induction ts generalizing m with
  | nil => simp [add_tokens, tokens_before_null]
  | cons t rest ih =>
    cases t with
    | none => simp [add_tokens, tokens_before_null]
    | some t =>
      have ht : t.length < MAX_WORD_LENGTH := hshort t (by simp [tokens_before_null])
      have hrest : ∀ u ∈ tokens_before_null rest, u.length < MAX_WORD_LENGTH :=
        fun u hu => hshort u (by simp [tokens_before_null, hu])
      obtain ⟨h1, h2⟩ := ih (add_word_to_vocab m t l) hrest
      obtain ⟨a1, a2⟩ := cell_counts_add_cells t l w ht m.vocabulary
      simp only [add_tokens, tokens_before_null]
      rw [h1, h2, add_word_to_vocab_vocabulary, a1, a2, List.count_cons]
      by_cases hl : l = 1 <;> by_cases hw : t = w <;> simp [hl, hw] <;> ring

theorem cell_counts_train_emails (w : Word) (emails : List TokenArray) (labels : List Int)
    (n : Nat) (m : SpamModel) (hshort : batch_short emails) :
    (cell_counts (train_emails m emails labels n).vocabulary w).1
      = (cell_counts m.vocabulary w).1 + (batch_counts w emails labels n).1 ∧
    (cell_counts (train_emails m emails labels n).vocabulary w).2
      = (cell_counts m.vocabulary w).2 + (batch_counts w emails labels n).2 := by
  induction n generalizing m emails labels with
  | zero => cases emails <;> cases labels <;> simp [train_emails, batch_counts]
  | succ k ih =>
    cases emails with
    | nil => simp [train_emails, batch_counts]
    | cons ts es =>
      cases labels with
      | nil => simp [train_emails, batch_counts]
      | cons l ls =>
        have hts : ∀ t ∈ tokens_before_null ts, t.length < MAX_WORD_LENGTH :=
          hshort ts (by simp)
        have hes : batch_short es := fun u hu => hshort u (by simp [hu])
        simp only [train_emails]
        obtain ⟨h1, h2⟩ := ih es ls (add_tokens
          (if l = 1 then { m with total_spam_emails := m.total_spam_emails + 1 }
           else { m with total_not_spam_emails := m.total_not_spam_emails + 1 }) ts l) hes
        obtain ⟨t1, t2⟩ := cell_counts_add_tokens w l ts
          (if l = 1 then { m with total_spam_emails := m.total_spam_emails + 1 }
           else { m with total_not_spam_emails := m.total_not_spam_emails + 1 }) hts
        have hv : (if l = 1 then { m with total_spam_emails := m.total_spam_emails + 1 }
           else { m with total_not_spam_emails := m.total_not_spam_emails + 1 }).vocabulary
             = m.vocabulary := by split <;> rfl
        rw [h1, h2, t1, t2, hv]
        by_cases hl : l = 1 <;> simp [batch_counts, hl] <;> ring

theorem cell_counts_map (f : WordProbability → WordProbability)
    (hw : ∀ e, (f e).word = e.word) (hs : ∀ e, (f e).spam_count = e.spam_count)
    (hn : ∀ e, (f e).not_spam_count = e.not_spam_count) (voc : List WordProbability) (w : Word) :
    cell_counts (voc.map f) w = cell_counts voc w := by
  induction voc with
  | nil => rfl
  | cons e rest ih => simp [cell_counts, hw, hs, hn, ih]

theorem cell_counts_set_probabilities (m : SpamModel) (w : Word) :
    cell_counts (set_probabilities m).vocabulary w = cell_counts m.vocabulary w := by
  unfold set_probabilities
  apply cell_counts_map <;> intro e <;> rfl

/-- The counts of every word after a training call: its counts before plus the number of its
token instances in the emails of the call, per class. -/
theorem train_word_counts (m : SpamModel) (emails : List TokenArray) (labels : List Int)
    (email_count : Int) (w : Word) (hpos : 0 < email_count) (hshort : batch_short emails) :
    (word_counts (train_naive_bayes_tokens m (some emails) (some labels) email_count) w).1
      = (word_counts m w).1 + (batch_counts w emails labels email_count.toNat).1 ∧
    (word_counts (train_naive_bayes_tokens m (some emails) (some labels) email_count) w).2
      = (word_counts m w).2 + (batch_counts w emails labels email_count.toNat).2 := by
  rw [word_counts_eq_cell_counts, word_counts_eq_cell_counts, train_unfold m emails labels
    email_count hpos, cell_counts_set_probabilities, (set_priors_frame _).2.2.1]
  exact cell_counts_train_emails w emails labels email_count.toNat
    { m with total_spam_emails := 0, total_not_spam_emails := 0 } hshort

/-! ## Cells are never removed -/

theorem add_cells_words_kept (w : Word) (l : Int) (voc : List WordProbability) :
    voc.map (fun e => e.word) <+: (add_cells voc w l).map (fun e => e.word) := by
  induction voc with
  | nil => exact List.nil_prefix
  | cons e rest ih =>
    by_cases he : e.word = w
    · by_cases hl : l = 1 <;> simp [add_cells, he, hl]
    · simp only [add_cells, he, if_false, List.map_cons]
      exact (List.prefix_cons_inj _).mpr ih

theorem add_tokens_words_kept (ts : TokenArray) (l : Int) (m : SpamModel) :
    m.vocabulary.map (fun e => e.word) <+: (add_tokens m ts l).vocabulary.map (fun e => e.word) := by
  induction ts generalizing m with
  | nil => simp [add_tokens]
  | cons t rest ih =>
    cases t with
    | none => simp [add_tokens]
    | some t =>
      simp only [add_tokens]
      refine List.IsPrefix.trans ?_ (ih (add_word_to_vocab m t l))
      rw [add_word_to_vocab_vocabulary]
      exact add_cells_words_kept t l m.vocabulary

theorem train_emails_words_kept (emails : List TokenArray) (labels : List Int) (n : Nat)
    (m : SpamModel) :
    m.vocabulary.map (fun e => e.word)
      <+: (train_emails m emails labels n).vocabulary.map (fun e => e.word) := by
  induction n generalizing m emails labels with
  | zero => cases emails <;> cases labels <;> simp [train_emails]
  | succ k ih =>
    cases emails with
    | nil => simp [train_emails]
    | cons ts es =>
      cases labels with
      | nil => simp [train_emails]
      | cons l ls =>
        simp only [train_emails]
        refine List.IsPrefix.trans ?_ (ih es ls _)
        refine List.IsPrefix.trans ?_ (add_tokens_words_kept ts l _)
        split <;> exact List.prefix_refl _

/-- A training call keeps every cell it finds, in place, with its word. -/
theorem train_words_kept (m : SpamModel) (tokenized_emails : Option (List TokenArray))
    (labels : Option (List Int)) (email_count : Int) :
    m.vocabulary.map (fun e => e.word)
      <+: (train_naive_bayes_tokens m tokenized_emails labels email_count).vocabulary.map
            (fun e => e.word) := by
  unfold train_naive_bayes_tokens
  cases tokenized_emails with
  | none => exact List.prefix_refl _
  | some emails =>
    cases labels with
    | none => exact List.prefix_refl _
    | some ls =>
      simp only
      split
      · exact List.prefix_refl _
      · have hw : (set_probabilities (set_priors (train_emails
            { m with total_spam_emails := 0, total_not_spam_emails := 0 }
            emails ls email_count.toNat))).vocabulary.map (fun e => e.word)
            = (train_emails { m with total_spam_emails := 0, total_not_spam_emails := 0 }
                emails ls email_count.toNat).vocabulary.map (fun e => e.word) := by
          simp [set_probabilities, (set_priors_frame _).2.2.1, Function.comp_def]
        rw [hw]
        exact train_emails_words_kept emails ls email_count.toNat
          { m with total_spam_emails := 0, total_not_spam_emails := 0 }

theorem demo_batch_short : batch_short create_test_tokenized_emails := by
  unfold batch_short
  decide

/-- C11: after training on batch A and then on batch B (both counts positive, all tokens
shorter than 100 characters), the two email counters are those of B alone, the counts of
every word are its counts before the two calls (zero on a fresh model) plus its token
instances in A and in B under the respective label, and the cells present after A are all
still there, in place, after B. -/
theorem C11_totals_reset_counts_accumulate (m : SpamModel)
    (emailsA emailsB : List TokenArray) (labelsA labelsB : List Int) (countA countB : Int)
    (hA : 0 < countA) (hB : 0 < countB)
    (heB : countB ≤ emailsB.length) (hlB : countB ≤ labelsB.length)
    (hsA : batch_short emailsA) (hsB : batch_short emailsB) :
    (train_naive_bayes_tokens (train_naive_bayes_tokens m (some emailsA) (some labelsA) countA)
        (some emailsB) (some labelsB) countB).total_spam_emails
      = (count_spam_labels labelsB countB.toNat : Int) ∧
    (train_naive_bayes_tokens (train_naive_bayes_tokens m (some emailsA) (some labelsA) countA)
        (some emailsB) (some labelsB) countB).total_not_spam_emails
      = countB - (count_spam_labels labelsB countB.toNat : Int) ∧
    (∀ w : Word,
      (word_counts (train_naive_bayes_tokens
          (train_naive_bayes_tokens m (some emailsA) (some labelsA) countA)
          (some emailsB) (some labelsB) countB) w).1
        = (word_counts m w).1 + (batch_counts w emailsA labelsA countA.toNat).1
            + (batch_counts w emailsB labelsB countB.toNat).1 ∧
      (word_counts (train_naive_bayes_tokens
          (train_naive_bayes_tokens m (some emailsA) (some labelsA) countA)
          (some emailsB) (some labelsB) countB) w).2
        = (word_counts m w).2 + (batch_counts w emailsA labelsA countA.toNat).2
            + (batch_counts w emailsB labelsB countB.toNat).2) ∧
    (train_naive_bayes_tokens m (some emailsA) (some labelsA) countA).vocabulary.map
        (fun e => e.word)
      <+: (train_naive_bayes_tokens (train_naive_bayes_tokens m (some emailsA) (some labelsA) countA)
            (some emailsB) (some labelsB) countB).vocabulary.map (fun e => e.word) := by
  obtain ⟨t1, t2⟩ := train_totals (train_naive_bayes_tokens m (some emailsA) (some labelsA) countA)
    emailsB labelsB countB hB heB hlB
  refine ⟨t1, t2, ?_, train_words_kept _ _ _ _⟩
  intro w
  obtain ⟨a1, a2⟩ := train_word_counts m emailsA labelsA countA w hA hsA
  obtain ⟨b1, b2⟩ := train_word_counts
    (train_naive_bayes_tokens m (some emailsA) (some labelsA) countA) emailsB labelsB countB w hB hsB
  exact ⟨by rw [b1, a1], by rw [b2, a2]⟩

/-- C11 on a fresh model trained twice on the six demo emails: the counters stay 3 and 3 while
the cell of `free` reaches the counts (2, 0). -/
theorem C11_totals_reset_counts_accumulate_witness :
    (train_naive_bayes_tokens demo_model (some create_test_tokenized_emails) (some demo_labels)
        6).total_spam_emails = 3 ∧
    word_counts (train_naive_bayes_tokens demo_model (some create_test_tokenized_emails)
        (some demo_labels) 6) "free".toList = (2, 0) := by
  have h := C11_totals_reset_counts_accumulate create_model create_test_tokenized_emails
    create_test_tokenized_emails demo_labels demo_labels 6 6 (by decide) (by decide) (by decide)
    (by decide) demo_batch_short demo_batch_short
  have hb : batch_counts "free".toList create_test_tokenized_emails demo_labels (6 : Int).toNat
      = (1, 0) := by decide
  have hw : word_counts create_model "free".toList = (0, 0) := by decide
  have hc : (count_spam_labels demo_labels (6 : Int).toNat : Int) = 3 := by decide
  refine ⟨?_, ?_⟩
  · exact h.1.trans hc
  · have h3 := h.2.2.1 "free".toList
    rw [hb, hw] at h3
    exact Prod.ext (by rw [show demo_model = train_naive_bayes_tokens create_model
        (some create_test_tokenized_emails) (some demo_labels) 6 from rfl]; rw [h3.1]; rfl)
      (by rw [show demo_model = train_naive_bayes_tokens create_model
        (some create_test_tokenized_emails) (some demo_labels) 6 from rfl]; rw [h3.2]; rfl)

/-! ## Unknown tokens -/

theorem score_tokens_eq_score_words (m : SpamModel) (ts : TokenArray) (n : Nat)
    (scores : CDouble × CDouble) :
    score_tokens m ts n scores = score_words m (processed_tokens ts n) scores := by
  induction ts generalizing n scores with
  | nil => simp [score_tokens, processed_tokens, score_words]
  | cons t rest ih =>
    cases t with
    | none => simp [score_tokens, processed_tokens, score_words]
    | some w =>
      cases n with
      | zero => simp [score_tokens, processed_tokens, score_words]
      | succ k => simp [score_tokens, processed_tokens, score_words, ih]

theorem CDouble.add_right_comm_fin (s x : CDouble) (c : ℝ) :
    (s.add (CDouble.fin c)).add x = (s.add x).add (CDouble.fin c) := by
  cases s <;> cases x <;> simp [CDouble.add, add_right_comm]

theorem score_step_unknown (m : SpamModel) (w : Word) (s t : CDouble)
    (h : known m w = false) :
    score_step m w (s, t)
      = (s.add (CDouble.fin (unknown_log m)), t.add (CDouble.fin (unknown_log m))) := by
  have hf : find_word m w = none := by
    unfold known at h
    cases hfw : find_word m w with
    | none => rfl
    | some i => simp [hfw] at h
  have hv : (0 : ℝ) < ((m.vocab_size + 1 : Int) : ℝ) := by
    have : (0 : Int) < m.vocab_size + 1 := by
      unfold SpamModel.vocab_size; omega
    exact_mod_cast this
  have hpos : (0 : ℝ) < 1 / ((m.vocab_size + 1 : Int) : ℝ) := by positivity
  unfold score_step unknown_log
  simp only [hf, CDouble.log_fin_pos _ hpos]

theorem score_step_shift (m : SpamModel) (w : Word) (s t : CDouble) (c : ℝ) :
    score_step m w (s.add (CDouble.fin c), t.add (CDouble.fin c))
      = ((score_step m w (s, t)).1.add (CDouble.fin c),
         (score_step m w (s, t)).2.add (CDouble.fin c)) := by
  unfold score_step
  cases find_word m w with
  | none => simp only [CDouble.add_right_comm_fin]
  | some i =>
    simp only
    cases m.vocabulary[i]? with
    | none => rfl
    | some e => simp only [CDouble.add_right_comm_fin]

theorem score_words_shift (m : SpamModel) (ws : List Word) (s t : CDouble) (c : ℝ) :
    score_words m ws (s.add (CDouble.fin c), t.add (CDouble.fin c))
      = ((score_words m ws (s, t)).1.add (CDouble.fin c),
         (score_words m ws (s, t)).2.add (CDouble.fin c)) := by
  induction ws generalizing s t with
  | nil => rfl
  | cons w rest ih =>
    simp only [score_words]
    rw [score_step_shift, ih]

theorem normalize_shift (s t : CDouble) (c : ℝ) :
    normalize_scores (s.add (CDouble.fin c)) (t.add (CDouble.fin c)) = normalize_scores s t := by
  cases s <;> cases t <;>
    first
    | (simp only [CDouble.add, normalize_fin_fin]
       congr 1
       rw [Real.exp_add, Real.exp_add]
       have := Real.exp_pos c
       field_simp
       ring)
    | simp [CDouble.add, normalize_scores, CDouble.gt, CDouble.sub, CDouble.exp, CDouble.div]

/-- The value the scoring code returns depends only on the known tokens it reads. -/
theorem normalize_score_words_filter (m : SpamModel) (ws : List Word) (s t : CDouble) :
    normalize_scores (score_words m ws (s, t)).1 (score_words m ws (s, t)).2
      = normalize_scores (score_words m (ws.filter (known m)) (s, t)).1
          (score_words m (ws.filter (known m)) (s, t)).2 := by
  induction ws generalizing s t with
  | nil => rfl
  | cons w rest ih =>
    by_cases hk : known m w = true
    · simp only [List.filter_cons, hk, if_true, score_words]
      exact ih _ _
    · have hk' : known m w = false := by simpa using hk
      simp only [List.filter_cons, hk', score_words]
      rw [score_step_unknown m w s t hk', score_words_shift, normalize_shift]
      simpa using ih s t

theorem predict_of_known_tokens (m : SpamModel) (ts ts' : TokenArray) (n n' : Int)
    (h : (processed_tokens ts n.toNat).filter (known m)
      = (processed_tokens ts' n'.toNat).filter (known m)) :
    predict_spam_probability_tokens m (some ts) n
      = predict_spam_probability_tokens m (some ts') n' := by
  unfold predict_spam_probability_tokens
  simp only
  split
  · rfl
  · rw [score_tokens_eq_score_words, score_tokens_eq_score_words,
      normalize_score_words_filter m (processed_tokens ts n.toNat),
      normalize_score_words_filter m (processed_tokens ts' n'.toNat), h]

/-- C14: two calls whose token sequences differ only by tokens absent from the vocabulary
(removed, or inserted anywhere) return the same probability and the same classification at
every threshold, because an unknown token adds the same `log(1 / (vocab_size + 1))` to both
scores. -/
theorem C14_unknown_tokens_change_nothing (m : SpamModel) (ts ts' : TokenArray) (n n' : Int)
    (h : (processed_tokens ts n.toNat).filter (known m)
      = (processed_tokens ts' n'.toNat).filter (known m)) :
    predict_spam_probability_tokens m (some ts) n
      = predict_spam_probability_tokens m (some ts') n' ∧
    (∀ threshold : CDouble, classify_email_tokens m (some ts) n threshold
      = classify_email_tokens m (some ts') n' threshold) ∧
    (∀ (w : Word) (s t : CDouble), known m w = false →
      score_step m w (s, t)
        = (s.add (CDouble.fin (unknown_log m)), t.add (CDouble.fin (unknown_log m)))) := by
  have hp := predict_of_known_tokens m ts ts' n n' h
  refine ⟨hp, ?_, fun w s t hk => score_step_unknown m w s t hk⟩
  intro threshold
  unfold classify_email_tokens
  rw [hp]

/-- C14 on the demo model: `[unknown, free, words]` scores as `[free]`. -/
theorem C14_unknown_tokens_change_nothing_witness :
    predict_spam_probability_tokens demo_model
        (some [some "unknown".toList, some "free".toList, some "words".toList, none]) 3
      = predict_spam_probability_tokens demo_model (some test5) 1 :=
  (C14_unknown_tokens_change_nothing demo_model
    [some "unknown".toList, some "free".toList, some "words".toList, none] test5 3 1
    (by decide)).1

theorem demo_empty_query_probability :
    predict_spam_probability_tokens demo_model (some []) 0 = CDouble.fin (1 / 2) := by
  obtain ⟨_, _, _, hcells⟩ := demo_scoring_ready
  have hv : demo_model.vocab_size ≠ 0 := by decide
  have hs : 0 < demo_model.prior_spam := by rw [demo_model_eq]; norm_num
  have hn : 0 < demo_model.prior_not_spam := by rw [demo_model_eq]; norm_num
  rw [predict_eq_bayes_ratio demo_model [] 0 hv hs hn hcells]
  have hr : bayes_ratio demo_model [] (0 : Int).toNat = 1 / 2 := by
    unfold bayes_ratio
    rw [demo_model_eq]
    simp [token_products]
    norm_num
  rw [hr]
  norm_num

/-- C15: on the demo model every query whose tokens are all absent from the vocabulary gets
the probability exactly 1/2, and `classify_email_tokens` with threshold 0.5 returns 1. -/
theorem C15_unknown_query_is_half (ts : TokenArray) (n : Int)
    (h : ∀ w ∈ processed_tokens ts n.toNat, known demo_model w = false) :
    predict_spam_probability_tokens demo_model (some ts) n = CDouble.fin (1 / 2) ∧
    classify_email_tokens demo_model (some ts) n (CDouble.fin (1 / 2)) = 1 := by
  have hfil : (processed_tokens ts n.toNat).filter (known demo_model)
      = (processed_tokens [] (0 : Int).toNat).filter (known demo_model) := by
    rw [List.filter_eq_nil_iff.mpr (fun w hw => by simp [h w hw])]
    rfl
  have hp : predict_spam_probability_tokens demo_model (some ts) n = CDouble.fin (1 / 2) :=
    (predict_of_known_tokens demo_model ts [] n 0 hfil).trans demo_empty_query_probability
  refine ⟨hp, ?_⟩
  unfold classify_email_tokens
  rw [hp]
  simp [CDouble.ge]

/-- C15 on the fourth query of the demo, `[unknown, words, test]` with `token_count` 3. -/
theorem C15_unknown_query_is_half_witness :
    predict_spam_probability_tokens demo_model (some test4) 3 = CDouble.fin (1 / 2) ∧
    classify_email_tokens demo_model (some test4) 3 (CDouble.fin (1 / 2)) = 1 :=
  C15_unknown_query_is_half test4 3 (by decide)

/-! ## The demo classifier on spam-only and not-spam-only words -/

theorem find_index_cell (voc : List WordProbability) (w : Word) (i : Nat)
    (h : find_index voc w = some i) :
    ∃ e, voc[i]? = some e ∧ e ∈ voc ∧ cell_counts voc w = (e.spam_count, e.not_spam_count) := by
  induction voc generalizing i with
  | nil => simp [find_index] at h
  | cons a rest ih =>
    by_cases ha : a.word = w
    · simp only [find_index, ha, if_true, Option.some.injEq] at h
      subst h
      exact ⟨a, by simp, by simp, by simp [cell_counts, ha]⟩
    · simp only [find_index, ha, if_false] at h
      cases hr : find_index rest w with
      | none => simp [hr] at h
      | some j =>
        simp [hr] at h
        subst h
        obtain ⟨e, h1, h2, h3⟩ := ih j hr
        exact ⟨e, by simpa using h1, by simp [h2], by simp [cell_counts, ha, h3]⟩

theorem demo_cells_shape :
    ∀ e ∈ demo_vocabulary,
      (e.spam_count = 1 ∧ e.prob_spam = 2 / 27 ∧ e.prob_not_spam = 1 / 27) ∨
      (e.spam_count = 0 ∧ e.prob_spam = 1 / 27 ∧ e.prob_not_spam = 2 / 27) := by
  simp [demo_vocabulary, demo_cell]

theorem demo_spam_only_cells :
    ∀ w ∈ demo_spam_only, known demo_model w = true ∧ cell_counts demo_vocabulary w = (1, 0) := by
  decide

theorem demo_not_spam_only_cells :
    ∀ w ∈ demo_not_spam_only,
      known demo_model w = true ∧ cell_counts demo_vocabulary w = (0, 1) := by
  decide

theorem demo_factor_of_counts (w : Word) (a b : Int) (hk : known demo_model w = true)
    (hc : cell_counts demo_vocabulary w = (a, b)) :
    (a = 1 ∧ token_factor demo_model w = (2 / 27, 1 / 27)) ∨
    (a = 0 ∧ token_factor demo_model w = (1 / 27, 2 / 27)) := by
  have hvoc : demo_model.vocabulary = demo_vocabulary := by rw [demo_model_eq]
  unfold known at hk
  cases hf : find_word demo_model w with
  | none => simp [hf] at hk
  | some i =>
    have hf' : find_index demo_vocabulary w = some i := by
      rw [← hvoc]; exact hf
    obtain ⟨e, h1, h2, h3⟩ := find_index_cell demo_vocabulary w i hf'
    rw [hc] at h3
    have ha : a = e.spam_count := congrArg Prod.fst h3
    have hfac : token_factor demo_model w = (e.prob_spam, e.prob_not_spam) := by
      unfold token_factor
      simp only [hf, hvoc, h1]
    rcases demo_cells_shape e h2 with ⟨s1, p1, p2⟩ | ⟨s0, p1, p2⟩
    · exact Or.inl ⟨by rw [ha, s1], by rw [hfac, p1, p2]⟩
    · exact Or.inr ⟨by rw [ha, s0], by rw [hfac, p1, p2]⟩

theorem demo_factor_spam_only (w : Word) (h : w ∈ demo_spam_only) :
    token_factor demo_model w = (2 / 27, 1 / 27) := by
  obtain ⟨hk, hc⟩ := demo_spam_only_cells w h
  rcases demo_factor_of_counts w 1 0 hk hc with ⟨_, hf⟩ | ⟨h0, _⟩
  · exact hf
  · exact absurd h0 (by decide)

theorem demo_factor_not_spam_only (w : Word) (h : w ∈ demo_not_spam_only) :
    token_factor demo_model w = (1 / 27, 2 / 27) := by
  obtain ⟨hk, hc⟩ := demo_not_spam_only_cells w h
  rcases demo_factor_of_counts w 0 1 hk hc with ⟨h1, _⟩ | ⟨_, hf⟩
  · exact absurd h1 (by decide)
  · exact hf

theorem demo_factor_unknown (w : Word) (h : known demo_model w = false) :
    (token_factor demo_model w).1 = (token_factor demo_model w).2 := by
  unfold known at h
  cases hf : find_word demo_model w with
  | none => simp [token_factor, hf]
  | some i => simp [hf] at h

theorem token_products_le (m : SpamModel)
    (hcells : ∀ e ∈ m.vocabulary, 0 < e.prob_spam ∧ 0 < e.prob_not_spam)
    (ts : TokenArray) (n : Nat)
    (h : ∀ w ∈ processed_tokens ts n, (token_factor m w).2 ≤ (token_factor m w).1) :
    (token_products m ts n).2 ≤ (token_products m ts n).1 := by
  induction ts generalizing n with
  | nil => simp [token_products]
  | cons t rest ih =>
    cases t with
    | none => simp [token_products]
    | some w =>
      cases n with
      | zero => simp [token_products]
      | succ k =>
        simp only [token_products]
        obtain ⟨_, f2⟩ := token_factor_pos m hcells w
        obtain ⟨_, r2⟩ := token_products_pos m hcells rest k
        have hw := h w (by simp [processed_tokens])
        have hr := ih k (fun u hu => h u (by simp [processed_tokens, hu]))
        exact mul_le_mul hw hr (le_of_lt r2) (le_trans (le_of_lt f2) hw)

theorem token_products_ge (m : SpamModel)
    (hcells : ∀ e ∈ m.vocabulary, 0 < e.prob_spam ∧ 0 < e.prob_not_spam)
    (ts : TokenArray) (n : Nat)
    (h : ∀ w ∈ processed_tokens ts n, (token_factor m w).1 ≤ (token_factor m w).2) :
    (token_products m ts n).1 ≤ (token_products m ts n).2 := by
  induction ts generalizing n with
  | nil => simp [token_products]
  | cons t rest ih =>
    cases t with
    | none => simp [token_products]
    | some w =>
      cases n with
      | zero => simp [token_products]
      | succ k =>
        simp only [token_products]
        obtain ⟨f1, _⟩ := token_factor_pos m hcells w
        obtain ⟨r1, _⟩ := token_products_pos m hcells rest k
        have hw := h w (by simp [processed_tokens])
        have hr := ih k (fun u hu => h u (by simp [processed_tokens, hu]))
        exact mul_le_mul hw hr (le_of_lt r1) (le_trans (le_of_lt f1) hw)

theorem token_products_lt (m : SpamModel)
    (hcells : ∀ e ∈ m.vocabulary, 0 < e.prob_spam ∧ 0 < e.prob_not_spam)
    (ts : TokenArray) (n : Nat)
    (h : ∀ w ∈ processed_tokens ts n, (token_factor m w).1 ≤ (token_factor m w).2)
    (hex : ∃ w ∈ processed_tokens ts n, (token_factor m w).1 < (token_factor m w).2) :
    (token_products m ts n).1 < (token_products m ts n).2 := by
  induction ts generalizing n with
  | nil => simp [processed_tokens] at hex
  | cons t rest ih =>
    cases t with
    | none => simp [processed_tokens] at hex
    | some w =>
      cases n with
      | zero => simp [processed_tokens] at hex
      | succ k =>
        simp only [token_products]
        obtain ⟨f1, f2⟩ := token_factor_pos m hcells w
        obtain ⟨r1, r2⟩ := token_products_pos m hcells rest k
        have hw := h w (by simp [processed_tokens])
        have hrest : ∀ u ∈ processed_tokens rest k, (token_factor m u).1 ≤ (token_factor m u).2 :=
          fun u hu => h u (by simp [processed_tokens, hu])
        have hr := token_products_ge m hcells rest k hrest
        obtain ⟨u, hu, hlt⟩ := hex
        simp only [processed_tokens, List.mem_cons] at hu
        rcases hu with rfl | hu
        · exact mul_lt_mul hlt hr r1 (le_of_lt f2)
        · have := ih k hrest ⟨u, hu, hlt⟩
          exact mul_lt_mul' hw this (le_of_lt r1) f2

theorem demo_predict_ratio (ts : TokenArray) (n : Int) :
    predict_spam_probability_tokens demo_model (some ts) n
      = CDouble.fin (((token_products demo_model ts n.toNat).1
          / ((token_products demo_model ts n.toNat).1
              + (token_products demo_model ts n.toNat).2) : ℚ) : ℝ) := by
  obtain ⟨_, _, _, hcells⟩ := demo_scoring_ready
  have hv : demo_model.vocab_size ≠ 0 := by decide
  have hps : demo_model.prior_spam = 1 / 2 := by rw [demo_model_eq]
  have hpn : demo_model.prior_not_spam = 1 / 2 := by rw [demo_model_eq]
  obtain ⟨p1, p2⟩ := token_products_pos demo_model hcells ts n.toNat
  rw [predict_eq_bayes_ratio demo_model ts n hv (by rw [hps]; norm_num) (by rw [hpn]; norm_num)
    hcells]
  congr 2
  unfold bayes_ratio
  rw [hps, hpn]
  field_simp

theorem demo_classifier_prediction (c : Classifier) (hm : c.model = demo_model)
    (ht : c.classification_threshold = CDouble.fin (1 / 2)) (ts : TokenArray) (n : Int) :
    (classifier_predict_tokens c (some ts) n).2
      = classify_email_tokens demo_model (some ts) n (CDouble.fin (1 / 2)) := by
  rw [← hm, ← ht]
  rfl

/-- C16: a classifier with threshold 0.5 that holds the model trained on the six demo emails
predicts spam (1) for every query whose tokens all occur only in the spam-labelled training
emails. -/
theorem C16_spam_only_query_is_spam (c : Classifier) (hm : c.model = demo_model)
    (ht : c.classification_threshold = CDouble.fin (1 / 2)) (ts : TokenArray) (n : Int)
    (h : ∀ w ∈ processed_tokens ts n.toNat, w ∈ demo_spam_only) :
    (classifier_predict_tokens c (some ts) n).2 = 1 := by
  obtain ⟨_, _, _, hcells⟩ := demo_scoring_ready
  obtain ⟨p1, p2⟩ := token_products_pos demo_model hcells ts n.toNat
  have hle : (token_products demo_model ts n.toNat).2 ≤ (token_products demo_model ts n.toNat).1 :=
    token_products_le demo_model hcells ts n.toNat (fun w hw => by
      rw [demo_factor_spam_only w (h w hw)]; norm_num)
  have hq : (1 / 2 : ℚ) ≤ (token_products demo_model ts n.toNat).1
      / ((token_products demo_model ts n.toNat).1 + (token_products demo_model ts n.toNat).2) := by
    rw [le_div_iff₀ (by positivity)]
    linarith
  have hr : (1 / 2 : ℝ) ≤ (((token_products demo_model ts n.toNat).1
      / ((token_products demo_model ts n.toNat).1 + (token_products demo_model ts n.toNat).2) : ℚ) : ℝ) :=
    calc (1 / 2 : ℝ) = ((1 / 2 : ℚ) : ℝ) := by norm_num
      _ ≤ _ := Rat.cast_le.mpr hq
  rw [demo_classifier_prediction c hm ht]
  unfold classify_email_tokens
  rw [demo_predict_ratio]
  simp only [CDouble.ge, ge_iff_le, hr, decide_True, if_true]

/-- C16 on the three spam queries of the demo: `[free, money, winner]`,
`[urgent, verify, account]` and `[free]`. -/
theorem C16_spam_only_query_is_spam_witness :
    (classifier_predict_tokens demo_classifier (some test1) 3).2 = 1 ∧
    (classifier_predict_tokens demo_classifier (some test3) 3).2 = 1 ∧
    (classifier_predict_tokens demo_classifier (some test5) 1).2 = 1 :=
  ⟨C16_spam_only_query_is_spam demo_classifier rfl rfl test1 3 (by decide),
   C16_spam_only_query_is_spam demo_classifier rfl rfl test3 3 (by decide),
   C16_spam_only_query_is_spam demo_classifier rfl rfl test5 1 (by decide)⟩

/-- C17: a classifier with threshold 0.5 that holds the model trained on the six demo emails
predicts not-spam (0) for every query that holds at least one word occurring only in the
not-spam training emails and otherwise only such words or words absent from the vocabulary. -/
theorem C17_not_spam_query_is_not_spam (c : Classifier) (hm : c.model = demo_model)
    (ht : c.classification_threshold = CDouble.fin (1 / 2)) (ts : TokenArray) (n : Int)
    (h : ∀ w ∈ processed_tokens ts n.toNat, w ∈ demo_not_spam_only ∨ known demo_model w = false)
    (hex : ∃ w ∈ processed_tokens ts n.toNat, w ∈ demo_not_spam_only) :
    (classifier_predict_tokens c (some ts) n).2 = 0 := by
  obtain ⟨_, _, _, hcells⟩ := demo_scoring_ready
  obtain ⟨p1, p2⟩ := token_products_pos demo_model hcells ts n.toNat
  have hlt : (token_products demo_model ts n.toNat).1 < (token_products demo_model ts n.toNat).2 := by
    apply token_products_lt demo_model hcells ts n.toNat
    · intro w hw
      rcases h w hw with hn | hu
      · rw [demo_factor_not_spam_only w hn]; norm_num
      · exact le_of_eq (demo_factor_unknown w hu)
    · obtain ⟨w, hw, hn⟩ := hex
      exact ⟨w, hw, by rw [demo_factor_not_spam_only w hn]; norm_num⟩
  have hq : (token_products demo_model ts n.toNat).1
      / ((token_products demo_model ts n.toNat).1 + (token_products demo_model ts n.toNat).2)
      < (1 / 2 : ℚ) := by
    rw [div_lt_iff₀ (by positivity)]
    linarith
  have hr : ¬ ((1 / 2 : ℝ) ≤ (((token_products demo_model ts n.toNat).1
      / ((token_products demo_model ts n.toNat).1 + (token_products demo_model ts n.toNat).2) : ℚ) : ℝ)) := by
    rw [not_le]
    calc (((token_products demo_model ts n.toNat).1
          / ((token_products demo_model ts n.toNat).1
              + (token_products demo_model ts n.toNat).2) : ℚ) : ℝ)
        < ((1 / 2 : ℚ) : ℝ) := Rat.cast_lt.mpr hq
      _ = 1 / 2 := by norm_num
  rw [demo_classifier_prediction c hm ht]
  unfold classify_email_tokens
  rw [demo_predict_ratio]
  simp only [CDouble.ge, ge_iff_le, hr, decide_False, if_false, Bool.false_eq_true]

/-- C17 on the second query of the demo, `[meeting, project, update]`. -/
theorem C17_not_spam_query_is_not_spam_witness :
    (classifier_predict_tokens demo_classifier (some test2) 3).2 = 0 :=
  C17_not_spam_query_is_not_spam demo_classifier rfl rfl test2 3 (by decide) (by decide)

/-! ## The guarded logarithm -/

/-- C21: for every real `x`, `safe_log(x)` is the natural logarithm of `x` when `x > 0` and
exactly -1000 when `x <= 0`; in particular at 0 and at negative arguments. -/
theorem C21_safe_log (x : ℝ) :
    safe_log (CDouble.fin x)
      = (if 0 < x then CDouble.fin (Real.log x) else CDouble.fin (-1000)) ∧
    safe_log (CDouble.fin 0) = CDouble.fin (-1000) ∧
    safe_log (CDouble.fin (-3)) = CDouble.fin (-1000) ∧
    safe_log (CDouble.fin 1) = CDouble.fin 0 := by
  have key : ∀ y : ℝ, safe_log (CDouble.fin y)
      = (if 0 < y then CDouble.fin (Real.log y) else CDouble.fin (-1000)) := by
    intro y
    unfold safe_log CDouble.le
    by_cases hy : 0 < y
    · have h1 : ¬ (0 ≥ y) := not_le.mpr hy
      simp only [CDouble.ge, h1, decide_False, hy, if_true, CDouble.log_fin_pos y hy,
        Bool.false_eq_true, if_false]
    · have h1 : (0 : ℝ) ≥ y := not_lt.mp hy
      simp only [CDouble.ge, h1, decide_True, hy, if_true, if_false]
  refine ⟨key x, ?_, ?_, ?_⟩
  · rw [key]; simp
  · rw [key]; norm_num
  · rw [key]; simp

/-! ## The two bounds of the scoring loop -/

theorem processed_tokens_terminated (ws : List Word) (junk : TokenArray) (k : Nat) :
    processed_tokens (ws.map some ++ none :: junk) k = ws.take k := by
  induction ws generalizing k with
  | nil => cases k <;> simp [processed_tokens]
  | cons w rest ih =>
    cases k with
    | zero => simp [processed_tokens]
    | succ j => simp [processed_tokens, ih]

theorem predict_of_processed_tokens (m : SpamModel) (ts ts' : TokenArray) (n n' : Int)
    (h : processed_tokens ts n.toNat = processed_tokens ts' n'.toNat) :
    predict_spam_probability_tokens m (some ts) n
      = predict_spam_probability_tokens m (some ts') n' :=
  predict_of_known_tokens m ts ts' n n' (by rw [h])

/-- C24: on a `NULL`-terminated token array holding the `L` tokens `ws` (followed by anything
after the sentinel) and for every `token_count` `n`, the result is the one obtained on the
first `min(max(n,0), L)` tokens alone: what follows the sentinel, and the tokens at or after
position `n`, have no influence, and every `n >= L` behaves as `n = L`. -/
theorem C24_token_count_and_sentinel (m : SpamModel) (ws : List Word) (junk : TokenArray)
    (n : Int) :
    predict_spam_probability_tokens m (some (ws.map some ++ none :: junk)) n
      = predict_spam_probability_tokens m (some ((ws.take n.toNat).map some ++ [none]))
          (min (max n 0) (ws.length : Int)) ∧
    (∀ (junk' : TokenArray) (n' : Int), (ws.length : Int) ≤ n → (ws.length : Int) ≤ n' →
      predict_spam_probability_tokens m (some (ws.map some ++ none :: junk)) n
        = predict_spam_probability_tokens m (some (ws.map some ++ none :: junk')) n') ∧
    (∀ (ws' : List Word) (junk' : TokenArray), ws.take n.toNat = ws'.take n.toNat →
      predict_spam_probability_tokens m (some (ws.map some ++ none :: junk)) n
        = predict_spam_probability_tokens m (some (ws'.map some ++ none :: junk')) n) := by
  refine ⟨?_, ?_, ?_⟩
  · apply predict_of_processed_tokens
    have hjunk : processed_tokens ((ws.take n.toNat).map some ++ [none])
        (min (max n 0) (ws.length : Int)).toNat
        = (ws.take n.toNat).take (min (max n 0) (ws.length : Int)).toNat :=
      processed_tokens_terminated (ws.take n.toNat) [] _
    rw [processed_tokens_terminated, hjunk]
    symm
    apply List.take_of_length_le
    rw [List.length_take]
    omega
  · intro junk' n' hn hn'
    apply predict_of_processed_tokens
    rw [processed_tokens_terminated, processed_tokens_terminated,
      List.take_of_length_le (by omega), List.take_of_length_le (by omega)]
  · intro ws' junk' h
    apply predict_of_processed_tokens
    rw [processed_tokens_terminated, processed_tokens_terminated, h]

/-! ## Labels other than 1 -/

theorem add_word_to_vocab_label_class (m : SpamModel) (w : Word) (l : Int) :
    add_word_to_vocab m w (label_class l) = add_word_to_vocab m w l := by
  unfold label_class
  by_cases h : l = 1
  · simp [h]
  · have h0 : ¬ ((0 : Int) = 1) := by decide
    unfold add_word_to_vocab
    simp only [h, if_false, h0]

theorem add_tokens_label_class (ts : TokenArray) (m : SpamModel) (l : Int) :
    add_tokens m ts (label_class l) = add_tokens m ts l := by
  induction ts generalizing m with
  | nil => simp [add_tokens]
  | cons t rest ih =>
    cases t with
    | none => simp [add_tokens]
    | some w => simp only [add_tokens, add_word_to_vocab_label_class, ih]

theorem train_emails_label_class (emails : List TokenArray) (labels : List Int) (n : Nat)
    (m : SpamModel) :
    train_emails m emails (labels.map label_class) n = train_emails m emails labels n := by
  induction n generalizing m emails labels with
  | zero => cases emails <;> cases labels <;> simp [train_emails]
  | succ k ih =>
    cases emails with
    | nil => simp [train_emails]
    | cons ts es =>
      cases labels with
      | nil => simp [train_emails]
      | cons l ls =>
        have hc : (label_class l = 1) ↔ (l = 1) := by
          unfold label_class
          by_cases h : l = 1 <;> simp [h]
        simp only [List.map_cons, train_emails, add_tokens_label_class, ih, hc]

/-- C26: after a training call with `email_count > 0`, `total_spam_emails` is the number of
indices `i < email_count` with `labels[i] == 1`, `total_not_spam_emails` is `email_count`
minus that number, the two add up to `email_count`, and the whole resulting model is the one
obtained with every label other than 1 replaced by 0. -/
theorem C26_label_counts (m : SpamModel) (emails : List TokenArray) (labels : List Int)
    (email_count : Int) (hpos : 0 < email_count)
    (he : email_count ≤ emails.length) (hl : email_count ≤ labels.length) :
    (train_naive_bayes_tokens m (some emails) (some labels) email_count).total_spam_emails
      = (((labels.take email_count.toNat).filter (fun l => l = 1)).length : Int) ∧
    (train_naive_bayes_tokens m (some emails) (some labels) email_count).total_not_spam_emails
      = email_count - (((labels.take email_count.toNat).filter (fun l => l = 1)).length : Int) ∧
    (train_naive_bayes_tokens m (some emails) (some labels) email_count).total_spam_emails
      + (train_naive_bayes_tokens m (some emails) (some labels) email_count).total_not_spam_emails
      = email_count ∧
    train_naive_bayes_tokens m (some emails) (some (labels.map label_class)) email_count
      = train_naive_bayes_tokens m (some emails) (some labels) email_count := by
  obtain ⟨h1, h2⟩ := train_totals m emails labels email_count hpos he hl
  refine ⟨h1, h2, ?_, ?_⟩
  · rw [h1, h2]; ring
  · rw [train_unfold _ _ _ _ hpos, train_unfold _ _ _ _ hpos, train_emails_label_class]

/-- C26 on the six demo emails with the labels `[1, 2, 1, -5, 1, 0]`: three spam emails, three
others, and the same model as with the labels `[1, 0, 1, 0, 1, 0]`. -/
theorem C26_label_counts_witness :
    (train_naive_bayes_tokens create_model (some create_test_tokenized_emails) (some odd_labels)
        6).total_spam_emails = 3 ∧
    (train_naive_bayes_tokens create_model (some create_test_tokenized_emails) (some odd_labels)
        6).total_not_spam_emails = 3 ∧
    train_naive_bayes_tokens create_model (some create_test_tokenized_emails) (some odd_labels) 6
      = demo_model := by
  have h := C26_label_counts create_model create_test_tokenized_emails odd_labels 6
    (by decide) (by decide) (by decide)
  have hc : (((odd_labels.take (6 : Int).toNat).filter (fun l => l = 1)).length : Int) = 3 := by
    decide
  have hmap : odd_labels.map label_class = demo_labels := by decide
  refine ⟨h.1.trans hc, ?_, ?_⟩
  · rw [h.2.1, hc]; rfl
  · rw [← h.2.2.2, hmap]; rfl

/-! ## First-seen order of the vocabulary -/

theorem add_cells_words (w : Word) (l : Int) (hshort : w.length < MAX_WORD_LENGTH)
    (voc : List WordProbability) :
    (add_cells voc w l).map (fun e => e.word) = see_word (voc.map (fun e => e.word)) w := by
  induction voc with
  | nil =>
    simp only [add_cells, take_short w hshort]
    by_cases hl : l = 1 <;> simp [see_word, hl]
  | cons e rest ih =>
    by_cases he : e.word = w
    · by_cases hl : l = 1 <;> simp [add_cells, see_word, he, hl]
    · have hwe : ¬ w = e.word := fun h => he h.symm
      simp only [add_cells, he, if_false, List.map_cons, ih]
      unfold see_word
      by_cases hm : w ∈ rest.map (fun e => e.word)
      · simp [hm]
      · simp [hm, hwe]

theorem add_tokens_words (ts : TokenArray) (l : Int) (m : SpamModel)
    (hshort : ∀ t ∈ tokens_before_null ts, t.length < MAX_WORD_LENGTH) :
    (add_tokens m ts l).vocabulary.map (fun e => e.word)
      = (tokens_before_null ts).foldl see_word (m.vocabulary.map (fun e => e.word)) := by
  induction ts generalizing m with
  | nil => simp [add_tokens, tokens_before_null]
  | cons t rest ih =>
    cases t with
    | none => simp [add_tokens, tokens_before_null]
    | some w =>
      have hw : w.length < MAX_WORD_LENGTH := hshort w (by simp [tokens_before_null])
      have hrest : ∀ u ∈ tokens_before_null rest, u.length < MAX_WORD_LENGTH :=
        fun u hu => hshort u (by simp [tokens_before_null, hu])
      simp only [add_tokens, tokens_before_null, List.foldl_cons]
      rw [ih _ hrest, add_word_to_vocab_vocabulary, add_cells_words w l hw]

theorem train_emails_words (emails : List TokenArray) (labels : List Int) (n : Nat)
    (m : SpamModel) (hshort : batch_short emails) :
    (train_emails m emails labels n).vocabulary.map (fun e => e.word)
      = (batch_tokens emails labels n).foldl see_word (m.vocabulary.map (fun e => e.word)) := by
  induction n generalizing m emails labels with
  | zero => cases emails <;> cases labels <;> simp [train_emails, batch_tokens]
  | succ k ih =>
    cases emails with
    | nil => simp [train_emails, batch_tokens]
    | cons ts es =>
      cases labels with
      | nil => simp [train_emails, batch_tokens]
      | cons l ls =>
        have hts : ∀ t ∈ tokens_before_null ts, t.length < MAX_WORD_LENGTH :=
          hshort ts (by simp)
        have hes : batch_short es := fun u hu => hshort u (by simp [hu])
        simp only [train_emails, batch_tokens, List.foldl_append]
        rw [ih es ls _ hes, add_tokens_words ts l _ hts]
        congr 2
        split <;> rfl

theorem foldl_see_word (ws : List Word) (acc : List Word) :
    ws.foldl see_word acc = acc ++ (remove_later_duplicates ws).filter (fun w => w ∉ acc) := by
  induction ws generalizing acc with
  | nil => simp [remove_later_duplicates]
  | cons w rest ih =>
    simp only [List.foldl_cons, remove_later_duplicates]
    rw [ih]
    unfold see_word
    by_cases hw : w ∈ acc
    · simp only [hw, if_true, List.filter_cons, decide_not, decide_True, Bool.not_true,
        Bool.false_eq_true, if_false, List.filter_filter]
      congr 1
      apply List.filter_congr
      intro u _
      by_cases hu : u ∈ acc
      · simp [hu]
      · have : u ≠ w := fun h => hu (h ▸ hw)
        simp [hu, this]
    · simp only [hw, if_false, List.filter_cons, decide_not, decide_False, Bool.not_false,
        if_true, List.filter_filter, List.append_assoc, List.singleton_append]
      congr 2
      apply List.filter_congr
      intro u _
      by_cases hu : u ∈ acc <;> by_cases huw : u = w <;> simp [hu, huw]

theorem remove_later_duplicates_mem (ws : List Word) (w : Word) :
    w ∈ remove_later_duplicates ws ↔ w ∈ ws := by
  induction ws with
  | nil => simp [remove_later_duplicates]
  | cons a rest ih =>
    simp only [remove_later_duplicates, List.mem_cons, List.mem_filter, ih]
    by_cases h : w = a <;> simp [h]

theorem remove_later_duplicates_nodup (ws : List Word) : (remove_later_duplicates ws).Nodup := by
  induction ws with
  | nil => simp [remove_later_duplicates]
  | cons a rest ih =>
    simp only [remove_later_duplicates, List.nodup_cons]
    exact ⟨by simp [List.mem_filter], ih.filter _⟩

theorem train_nonpositive_count (m : SpamModel) (emails : List TokenArray) (labels : List Int)
    (email_count : Int) (h : email_count ≤ 0) :
    train_naive_bayes_tokens m (some emails) (some labels) email_count = m := by
  simp [train_naive_bayes_tokens, h]

/-- The words of the vocabulary after training a fresh model, in index order. -/
theorem train_fresh_words (emails : List TokenArray) (labels : List Int) (email_count : Int)
    (hshort : batch_short emails) :
    (train_naive_bayes_tokens create_model (some emails) (some labels)
        email_count).vocabulary.map (fun e => e.word)
      = remove_later_duplicates (batch_tokens emails labels email_count.toNat) := by
  by_cases hpos : 0 < email_count
  · rw [train_unfold _ _ _ _ hpos]
    have hw : (set_probabilities (set_priors (train_emails
        { create_model with total_spam_emails := 0, total_not_spam_emails := 0 }
        emails labels email_count.toNat))).vocabulary.map (fun e => e.word)
        = (train_emails { create_model with total_spam_emails := 0, total_not_spam_emails := 0 }
            emails labels email_count.toNat).vocabulary.map (fun e => e.word) := by
      simp [set_probabilities, (set_priors_frame _).2.2.1, Function.comp_def]
    rw [hw, train_emails_words emails labels email_count.toNat _ hshort, foldl_see_word]
    simp [create_model]
  · have h0 : email_count.toNat = 0 := by omega
    rw [train_nonpositive_count create_model emails labels email_count (by omega), h0]
    cases emails <;> cases labels <;> simp [batch_tokens, remove_later_duplicates, create_model]

theorem batch_tokens_eq_flatten (emails : List TokenArray) (labels : List Int) (n : Nat)
    (he : n ≤ emails.length) (hl : n ≤ labels.length) :
    batch_tokens emails labels n = ((emails.take n).map tokens_before_null).flatten := by
  induction n generalizing emails labels with
  | zero => cases emails <;> cases labels <;> simp [batch_tokens]
  | succ k ih =>
    cases emails with
    | nil => simp at he
    | cons ts es =>
      cases labels with
      | nil => simp at hl
      | cons l ls =>
        simp only [List.length_cons, Nat.add_le_add_iff_right] at he hl
        simp [batch_tokens, ih es ls he hl]

/-- C23: after training a fresh model on emails whose tokens are all shorter than 100
characters, the words of the vocabulary in index order are the tokens of the processed emails,
email 0 first, with every later duplicate removed: first-seen order, no word twice, and
`vocab_size` is the number of distinct tokens. -/
theorem C23_first_seen_order (emails : List TokenArray) (labels : List Int) (email_count : Int)
    (hshort : batch_short emails)
    (he : email_count ≤ emails.length) (hl : email_count ≤ labels.length) :
    (train_naive_bayes_tokens create_model (some emails) (some labels)
        email_count).vocabulary.map (fun e => e.word)
      = remove_later_duplicates
          ((emails.take email_count.toNat).map tokens_before_null).flatten ∧
    (remove_later_duplicates
      ((emails.take email_count.toNat).map tokens_before_null).flatten).Nodup ∧
    (∀ w : Word, w ∈ remove_later_duplicates
        ((emails.take email_count.toNat).map tokens_before_null).flatten
      ↔ w ∈ ((emails.take email_count.toNat).map tokens_before_null).flatten) ∧
    (train_naive_bayes_tokens create_model (some emails) (some labels) email_count).vocab_size
      = ((((emails.take email_count.toNat).map tokens_before_null).flatten).toFinset.card : Int) := by
  have hb := batch_tokens_eq_flatten emails labels email_count.toNat (by omega) (by omega)
  have hw := train_fresh_words emails labels email_count hshort
  rw [hb] at hw
  refine ⟨hw, remove_later_duplicates_nodup _, remove_later_duplicates_mem _, ?_⟩
  have hlen : (train_naive_bayes_tokens create_model (some emails) (some labels)
      email_count).vocab_size
      = (((train_naive_bayes_tokens create_model (some emails) (some labels)
          email_count).vocabulary.map (fun e => e.word)).length : Int) := by
    simp [SpamModel.vocab_size]
  rw [hlen, hw, ← List.toFinset_card_of_nodup (remove_later_duplicates_nodup _)]
  congr 2
  ext w
  simp [remove_later_duplicates_mem]

/-- C23 on the demo call: the 24 words in the order of the six emails. -/
theorem C23_first_seen_order_witness :
    demo_model.vocabulary.map (fun e => e.word)
      = remove_later_duplicates
          ((create_test_tokenized_emails.take (6 : Int).toNat).map tokens_before_null).flatten ∧
    demo_model.vocab_size
      = ((((create_test_tokenized_emails.take (6 : Int).toNat).map
          tokens_before_null).flatten).toFinset.card : Int) :=
  ⟨(C23_first_seen_order create_test_tokenized_emails demo_labels 6 demo_batch_short
      (by decide) (by decide)).1,
   (C23_first_seen_order create_test_tokenized_emails demo_labels 6 demo_batch_short
      (by decide) (by decide)).2.2.2⟩

/-! ## Counts of a fresh model -/

theorem find_index_isSome_iff (voc : List WordProbability) (w : Word) :
    (find_index voc w).isSome = true ↔ w ∈ voc.map (fun e => e.word) := by
  induction voc with
  | nil => simp [find_index]
  | cons e rest ih =>
    by_cases he : e.word = w
    · simp [find_index, he]
    · have hwe : ¬ w = e.word := fun h => he h.symm
      simp only [find_index, he, if_false, List.map_cons, List.mem_cons, hwe, false_or, ← ih]
      cases find_index rest w <;> simp

/-- C22: after training a fresh model with `email_count > 0` on emails whose tokens are all
shorter than 100 characters, the cell of every word `w` has `spam_count` equal to the number of
token instances of `w` in the processed emails labelled 1 and `not_spam_count` equal to the
number in the other processed emails, and `w` has a cell exactly when it occurs in a processed
email. -/
theorem C22_counts_are_token_instances (emails : List TokenArray) (labels : List Int)
    (email_count : Int) (w : Word) (hpos : 0 < email_count) (hshort : batch_short emails) :
    word_counts (train_naive_bayes_tokens create_model (some emails) (some labels) email_count) w
      = batch_counts w emails labels email_count.toNat ∧
    (known (train_naive_bayes_tokens create_model (some emails) (some labels) email_count) w = true
      ↔ w ∈ batch_tokens emails labels email_count.toNat) := by
  obtain ⟨h1, h2⟩ := train_word_counts create_model emails labels email_count w hpos hshort
  have h0 : word_counts create_model w = (0, 0) := rfl
  rw [h0] at h1 h2
  constructor
  · exact Prod.ext (by rw [h1]; simp) (by rw [h2]; simp)
  · unfold known find_word
    rw [find_index_isSome_iff, train_fresh_words emails labels email_count hshort,
      remove_later_duplicates_mem]

/-- C22 on one spam email that repeats `free` three times: the cell of `free` has the counts
(3, 0), and `free` has a cell. -/
theorem C22_counts_are_token_instances_witness :
    word_counts (train_naive_bayes_tokens create_model (some repeated_word_email) (some [1]) 1)
        "free".toList = (3, 0) ∧
    known (train_naive_bayes_tokens create_model (some repeated_word_email) (some [1]) 1)
        "free".toList = true := by
  have hs : batch_short repeated_word_email := by unfold batch_short; decide
  have h := C22_counts_are_token_instances repeated_word_email [1] 1 "free".toList
    (by decide) hs
  have hb : batch_counts "free".toList repeated_word_email [1] (1 : Int).toNat = (3, 0) := by
    decide
  exact ⟨h.1.trans hb, h.2.mpr (by decide)⟩

/-! ## The log-space code against the direct Bayes ratio -/

theorem token_products_eq_prod (m : SpamModel) (ts : TokenArray) (n : Nat) :
    token_products m ts n
      = (((processed_tokens ts n).map (fun w => (token_factor m w).1)).prod,
         ((processed_tokens ts n).map (fun w => (token_factor m w).2)).prod) := by
  induction ts generalizing n with
  | nil => simp [token_products, processed_tokens]
  | cons t rest ih =>
    cases t with
    | none => simp [token_products, processed_tokens]
    | some w =>
      cases n with
      | zero => simp [token_products, processed_tokens]
      | succ k => simp [token_products, processed_tokens, ih]

theorem bayes_ratio_perm (m : SpamModel) (ts ts' : TokenArray) (n n' : Nat)
    (h : (processed_tokens ts n).Perm (processed_tokens ts' n')) :
    bayes_ratio m ts n = bayes_ratio m ts' n' := by
  unfold bayes_ratio
  rw [token_products_eq_prod m ts n, token_products_eq_prod m ts' n']
  simp only
  rw [(h.map (fun w => (token_factor m w).1)).prod_eq,
    (h.map (fun w => (token_factor m w).2)).prod_eq]

/-- C25: for a model with a non-empty vocabulary, both priors positive and positive
probabilities in every cell, the value of the log-space, max-subtracted code is the direct
Bayes ratio `S / (S + N)`, with `S = prior_spam` times the product over the tokens read of
`prob_spam` (or `1 / (vocab_size + 1)` for an unknown token) and `N` the same with
`prior_not_spam` and `prob_not_spam`; hence reordering the tokens read does not change it. -/
theorem C25_log_space_is_bayes_ratio (m : SpamModel) (ts : TokenArray) (token_count : Int)
    (hv : m.vocab_size ≠ 0) (hs : 0 < m.prior_spam) (hn : 0 < m.prior_not_spam)
    (hcells : ∀ e ∈ m.vocabulary, 0 < e.prob_spam ∧ 0 < e.prob_not_spam) :
    predict_spam_probability_tokens m (some ts) token_count
      = CDouble.fin ((bayes_ratio m ts token_count.toNat : ℚ) : ℝ) ∧
    bayes_ratio m ts token_count.toNat
      = m.prior_spam
          * ((processed_tokens ts token_count.toNat).map (fun w => (token_factor m w).1)).prod
        / (m.prior_spam
            * ((processed_tokens ts token_count.toNat).map (fun w => (token_factor m w).1)).prod
          + m.prior_not_spam
            * ((processed_tokens ts token_count.toNat).map (fun w => (token_factor m w).2)).prod) ∧
    (∀ (ts' : TokenArray) (n' : Int),
      (processed_tokens ts token_count.toNat).Perm (processed_tokens ts' n'.toNat) →
      predict_spam_probability_tokens m (some ts') n'
        = predict_spam_probability_tokens m (some ts) token_count) := by
  refine ⟨predict_eq_bayes_ratio m ts token_count hv hs hn hcells, ?_, ?_⟩
  · unfold bayes_ratio
    rw [token_products_eq_prod]
  · intro ts' n' hperm
    rw [predict_eq_bayes_ratio m ts token_count hv hs hn hcells,
      predict_eq_bayes_ratio m ts' n' hv hs hn hcells,
      bayes_ratio_perm m ts ts' token_count.toNat n'.toNat hperm]

/-- C25 on the demo model: `[free, money, winner]` and `[winner, free, money]` both score
as the Bayes ratio of the first query. -/
theorem C25_log_space_is_bayes_ratio_witness :
    predict_spam_probability_tokens demo_model (some test1) 3
      = CDouble.fin ((bayes_ratio demo_model test1 (3 : Int).toNat : ℚ) : ℝ) ∧
    predict_spam_probability_tokens demo_model
        (some [some "winner".toList, some "free".toList, some "money".toList, none]) 3
      = predict_spam_probability_tokens demo_model (some test1) 3 := by
  have h := C25_log_space_is_bayes_ratio demo_model test1 3 (by decide)
    (by rw [demo_model_eq]; norm_num) (by rw [demo_model_eq]; norm_num) demo_scoring_ready.2.2.2
  refine ⟨h.1, h.2.2 _ 3 ?_⟩
  decide

end SpamClassifier
